import Mathlib

/-!
# Verification of the GoldenEra cryptoj transaction codec

A shallow embedding of the TypeScript library `goldenera-cryptoj-js`:
the RLP writer (`src/serialization/rlp.ts`), the transaction encoder
(`src/serialization/TxEncoder.ts`), the payload codec
(`src/serialization/PayloadCodec.ts`), the transaction decoder
(`src/serialization/TxDecoder.ts`), the builder (`src/tx/TxBuilder.ts`) and
the structural signature check (`src/crypto/PrivateKey.ts`).

Modelling conventions:
* A byte string (`Uint8Array`) is a `List Nat`; the encoder only produces
  values below 256, and the decoders interpret whatever they are given, so no
  global bound is imposed.
* TypeScript `bigint` scalars are `Nat` (the library encodes unsigned values
  only).
* Hex-string carriers (`Address`, `Hash`, `Signature`) are modelled by their
  byte content: `hexToBytes`/`bytesToHex` in `src/types.ts` form a bijection
  between lowercase `0x` hex strings and byte arrays, so field equality of
  the strings is field equality of these lists.
* `null`/absent is `Option.none`; code that throws is modelled in `Except`.
* The Keccak-256 and secp256k1 primitives are external collaborators
  (spec §1); every definition that needs them takes them as explicit
  function arguments `keccak` / `recover`.
-/

namespace CryptoJ

/-- Byte strings: each entry is one byte. -/
abbrev Bytes := List Nat

/-! ## Scalars (`src/serialization/rlp.ts`)

`encodeScalar` renders a bigint as a minimal big-endian byte string via its
hex representation (padded to even length); `decodeScalar` is
`BigInt(bytesToHex(bytes))`, i.e. the big-endian value of the bytes. -/

/-- Big-endian value of a byte string; `decodeScalar` from `rlp.ts`
(`BigInt(bytesToHex bytes)`, with the empty string giving `0`). -/
def decodeScalar (bs : Bytes) : Nat := bs.foldl (fun a b => a * 256 + b) 0

/-- Fuelled helper for `encodeScalar`: strip the value into big-endian bytes.
The fuel is only a termination device; `n` itself always suffices. -/
def natToBEBytesAux : Nat → Nat → Bytes
  | 0, _ => []
  | _ + 1, 0 => []
  | fuel + 1, n => natToBEBytesAux fuel (n / 256) ++ [n % 256]

/-- Minimal big-endian bytes of `n` (no leading zero bytes, empty for `0`):
`encodeScalar` of `rlp.ts` (value `0n` returns an empty `Uint8Array`,
otherwise the even-length hex digits of the value are turned into bytes). -/
def encodeScalar (v : Nat) : Bytes := natToBEBytesAux v v

theorem decodeScalar_append_singleton (bs : Bytes) (b : Nat) :
    decodeScalar (bs ++ [b]) = decodeScalar bs * 256 + b := by
  simp [decodeScalar, List.foldl_append]

theorem natToBEBytesAux_zero (fuel : Nat) : natToBEBytesAux fuel 0 = [] := by
  cases fuel <;> rfl

theorem natToBEBytesAux_succ (fuel n : Nat) :
    natToBEBytesAux (fuel + 1) (n + 1)
      = natToBEBytesAux fuel ((n + 1) / 256) ++ [(n + 1) % 256] := rfl

theorem natToBEBytesAux_eq_of_le {fuel fuel' n : Nat} (h : n ≤ fuel) (h' : n ≤ fuel') :
    natToBEBytesAux fuel n = natToBEBytesAux fuel' n := by
  induction fuel using Nat.strong_induction_on generalizing fuel' n with
  | _ fuel ih =>
    match n with
    | 0 => rw [natToBEBytesAux_zero, natToBEBytesAux_zero]
    | n + 1 =>
      match fuel, fuel', h, h' with
      | f + 1, f' + 1, h, h' =>
        rw [natToBEBytesAux_succ, natToBEBytesAux_succ]
        have hdiv : (n + 1) / 256 ≤ f := le_trans (Nat.le_of_lt_succ
          (Nat.div_lt_self (Nat.succ_pos n) (by norm_num))) (Nat.le_of_succ_le_succ h)
        have hdiv' : (n + 1) / 256 ≤ f' := le_trans (Nat.le_of_lt_succ
          (Nat.div_lt_self (Nat.succ_pos n) (by norm_num))) (Nat.le_of_succ_le_succ h')
        rw [ih f (Nat.lt_succ_self f) hdiv hdiv']

theorem encodeScalar_zero : encodeScalar 0 = [] := rfl

theorem encodeScalar_succ (n : Nat) :
    encodeScalar (n + 1) = encodeScalar ((n + 1) / 256) ++ [(n + 1) % 256] := by
  have hdiv : (n + 1) / 256 ≤ n := Nat.le_of_lt_succ
    (Nat.div_lt_self (Nat.succ_pos n) (by norm_num))
  rw [encodeScalar, natToBEBytesAux_succ, encodeScalar,
    natToBEBytesAux_eq_of_le (le_refl _) hdiv]

/-- The scalar codec round-trips: reading the minimal big-endian bytes back
recovers the value. -/
theorem decodeScalar_encodeScalar (n : Nat) : decodeScalar (encodeScalar n) = n := by
  induction n using Nat.strong_induction_on with
  | _ n ih =>
    match n with
    | 0 => rfl
    | n + 1 =>
      rw [encodeScalar_succ, decodeScalar_append_singleton,
        ih ((n + 1) / 256) (Nat.div_lt_self (Nat.succ_pos n) (by norm_num))]
      omega

/-- A positive value below 256 is its own minimal big-endian byte. -/
theorem encodeScalar_single {n : Nat} (h0 : 0 < n) (h : n < 256) :
    encodeScalar n = [n] := by
  match n, h0 with
  | n + 1, _ =>
    rw [encodeScalar_succ, Nat.div_eq_of_lt h, encodeScalar_zero, Nat.mod_eq_of_lt h]
    rfl

/-! ## RLP string and list headers (`RLPWriter` in `rlp.ts`) -/

/-- `RLPWriter.encodeLengthBytes`: a length as 1–4 big-endian bytes
(`>> k` and `& 0xff` written as division and remainder; the source's shifts
agree with these for the lengths a JS array can have). -/
def encodeLengthBytes (n : Nat) : Bytes :=
  if n < 256 then [n]
  else if n < 65536 then [n / 256, n % 256]
  else if n < 16777216 then [n / 65536, n / 256 % 256, n % 256]
  else [n / 16777216, n / 65536 % 256, n / 256 % 256, n % 256]

/-- `RLPWriter.encodeString`: the standard RLP encoding of a byte string. -/
def rlpEncodeString (bs : Bytes) : Bytes :=
  if bs.length = 0 then [0x80]
  else if bs.length = 1 ∧ bs.headD 0 < 0x80 then bs
  else if bs.length ≤ 55 then (0x80 + bs.length) :: bs
  else (0xb7 + (encodeLengthBytes bs.length).length) :: (encodeLengthBytes bs.length ++ bs)

/-- `RLPWriter.encodeListHeader`: the prefix for a list whose encoded payload
occupies `p` bytes. -/
def encodeListHeader (p : Nat) : Bytes :=
  if p ≤ 55 then [0xc0 + p]
  else (0xf7 + (encodeLengthBytes p).length) :: encodeLengthBytes p

theorem encodeLengthBytes_length_pos (n : Nat) : 0 < (encodeLengthBytes n).length := by
  unfold encodeLengthBytes; split <;> [skip; split] <;> [simp; skip; split] <;> simp

theorem encodeLengthBytes_length_le (n : Nat) : (encodeLengthBytes n).length ≤ 4 := by
  unfold encodeLengthBytes; split <;> [skip; split] <;> [simp; skip; split] <;> simp

theorem decodeScalar_encodeLengthBytes {n : Nat} (h : n < 2 ^ 31) :
    decodeScalar (encodeLengthBytes n) = n := by
  unfold encodeLengthBytes
  split <;> [skip; split] <;> [skip; skip; split] <;> simp [decodeScalar] <;> omega

/-! ## RLP item trees

The value space of the `rlp` npm package: an RLP value is either a byte
string or a list of RLP values (`RLPDecoded` in `rlp.ts`).  `encodeItem` is
the canonical serialization of such a tree; on byte strings it is exactly
`RLPWriter.encodeString`, on lists exactly `RLPWriter.encodeListHeader`
applied to the concatenated element encodings. -/

inductive RLPItem where
  | bytes : Bytes → RLPItem
  | list : List RLPItem → RLPItem

mutual
def RLPItem.eqb : RLPItem → RLPItem → Bool
  | .bytes a, .bytes b => a = b
  | .list as, .list bs => RLPItem.eqbList as bs
  | _, _ => false
def RLPItem.eqbList : List RLPItem → List RLPItem → Bool
  | [], [] => true
  | a :: as, b :: bs => RLPItem.eqb a b && RLPItem.eqbList as bs
  | _, _ => false
end

mutual
theorem RLPItem.eqb_iff : ∀ a b : RLPItem, RLPItem.eqb a b = true ↔ a = b
  | .bytes a, .bytes b => by simp [RLPItem.eqb]
  | .bytes _, .list _ => by simp [RLPItem.eqb]
  | .list _, .bytes _ => by simp [RLPItem.eqb]
  | .list as, .list bs => by rw [RLPItem.eqb, RLPItem.eqbList_iff as bs]; simp
theorem RLPItem.eqbList_iff : ∀ as bs : List RLPItem, RLPItem.eqbList as bs = true ↔ as = bs
  | [], [] => by simp [RLPItem.eqbList]
  | [], _ :: _ => by simp [RLPItem.eqbList]
  | _ :: _, [] => by simp [RLPItem.eqbList]
  | a :: as, b :: bs => by
      rw [RLPItem.eqbList, Bool.and_eq_true, RLPItem.eqb_iff a b,
        RLPItem.eqbList_iff as bs]
      simp
end

instance : DecidableEq RLPItem := fun a b => decidable_of_iff _ (RLPItem.eqb_iff a b)

mutual
/-- Canonical RLP serialization of an item tree. -/
def encodeItem : RLPItem → Bytes
  | .bytes d => rlpEncodeString d
  | .list its => encodeListHeader (encodeItemsPayload its).length ++ encodeItemsPayload its
/-- Concatenated serializations of a list of items (a list's payload). -/
def encodeItemsPayload : List RLPItem → Bytes
  | [] => []
  | it :: its => encodeItem it ++ encodeItemsPayload its
end

mutual
/-- Size well-formedness: every byte string and every list payload in the
tree is short enough for the 1–4-byte length prefixes of the writer (the
JavaScript source manipulates lengths with 32-bit shifts). -/
def itemWF : RLPItem → Bool
  | .bytes d => decide (d.length < 2 ^ 31)
  | .list its => decide ((encodeItemsPayload its).length < 2 ^ 31) && itemsWF its
def itemsWF : List RLPItem → Bool
  | [] => true
  | it :: its => itemWF it && itemsWF its
end

theorem rlpEncodeString_length_pos (bs : Bytes) : 0 < (rlpEncodeString bs).length := by
  unfold rlpEncodeString
  split
  · simp
  · split
    · next h _ => match bs, h with | _ :: _, _ => simp
    · split <;> simp

theorem encodeListHeader_length_pos (p : Nat) : 0 < (encodeListHeader p).length := by
  unfold encodeListHeader; split <;> simp

theorem encodeItem_length_pos (it : RLPItem) : 0 < (encodeItem it).length := by
  match it with
  | .bytes d => exact rlpEncodeString_length_pos d
  | .list its =>
    rw [encodeItem]
    simp only [List.length_append]
    exact Nat.lt_of_lt_of_le (encodeListHeader_length_pos _) (Nat.le_add_right _ _)

/-! ## The RLP parser

Models `RLP.decode` of the `rlp` npm package, the external decoder the
repository calls through `rlpDecode` (`rlp.ts`).  Modelled from the spec:
§4.1 fixes the byte format (string and list headers, length prefixes); the
parser below reads one item and returns the unconsumed tail.  Fuel makes the
recursion structural; `rlpDecode` passes enough fuel for any input. -/

mutual
def parseItem : Nat → Bytes → Option (RLPItem × Bytes)
  | 0, _ => none
  | _ + 1, [] => none
  | fuel + 1, b :: rest =>
    if b < 0x80 then some (.bytes [b], rest)
    else if b ≤ 0xb7 then
      let n := b - 0x80
      if n ≤ rest.length then some (.bytes (rest.take n), rest.drop n) else none
    else if b ≤ 0xbf then
      let ll := b - 0xb7
      if ll ≤ rest.length then
        let n := decodeScalar (rest.take ll)
        if n ≤ (rest.drop ll).length then
          some (.bytes ((rest.drop ll).take n), (rest.drop ll).drop n)
        else none
      else none
    else if b ≤ 0xf7 then
      let p := b - 0xc0
      if p ≤ rest.length then
        match parseItems fuel (rest.take p) with
        | some its => some (.list its, rest.drop p)
        | none => none
      else none
    else
      let ll := b - 0xf7
      if ll ≤ rest.length then
        let p := decodeScalar (rest.take ll)
        if p ≤ (rest.drop ll).length then
          match parseItems fuel ((rest.drop ll).take p) with
          | some its => some (.list its, (rest.drop ll).drop p)
          | none => none
        else none
      else none
def parseItems : Nat → Bytes → Option (List RLPItem)
  | 0, _ => none
  | _ + 1, [] => some []
  | fuel + 1, b :: rest =>
    match parseItem fuel (b :: rest) with
    | some (it, rem) =>
      match parseItems fuel rem with
      | some its => some (it :: its)
      | none => none
    | none => none
end

/-- `rlpDecode` (`rlp.ts`): decode a byte string into one RLP item,
rejecting unconsumed trailing bytes like the npm decoder does. -/
def rlpDecode (bs : Bytes) : Option RLPItem :=
  match parseItem (2 * bs.length + 2) bs with
  | some (it, []) => some it
  | _ => none

/-! ## Parser/serializer round trip -/

theorem parseItem_rlpEncodeString {d : Bytes} (hd : d.length < 2 ^ 31)
    (rest : Bytes) (fuel : Nat) (hf : 1 ≤ fuel) :
    parseItem fuel (rlpEncodeString d ++ rest) = some (.bytes d, rest) := by
  match fuel, hf with
  | fuel + 1, _ =>
  unfold rlpEncodeString
  split
  · next h =>
    have hd0 : d = [] := List.length_eq_zero.mp h
    subst hd0
    simp [parseItem]
  · split
    · next h1 h2 =>
      match d, h2.1 with
      | [b], _ =>
        have hb : b < 0x80 := h2.2
        simp [parseItem, hb]
    · split
      · next h1 h2 h3 =>
        rw [List.cons_append, parseItem]
        rw [if_neg (by omega), if_pos (by omega),
          show (0x80 + d.length - 0x80) = d.length by omega,
          if_pos (by simp)]
        simp [List.take_left, List.drop_left]
      · next h1 h2 h3 =>
        have hL1 : 0 < (encodeLengthBytes d.length).length :=
          encodeLengthBytes_length_pos _
        have hL4 : (encodeLengthBytes d.length).length ≤ 4 :=
          encodeLengthBytes_length_le _
        rw [List.cons_append, List.append_assoc, parseItem]
        rw [if_neg (by omega), if_neg (by omega), if_pos (by omega),
          show (0xb7 + (encodeLengthBytes d.length).length - 0xb7)
            = (encodeLengthBytes d.length).length by omega,
          if_pos (by simp only [List.length_append]; omega),
          List.take_left, List.drop_left,
          decodeScalar_encodeLengthBytes hd,
          if_pos (by simp), List.take_left, List.drop_left]

mutual
theorem parseItem_encodeItem : ∀ (it : RLPItem), itemWF it = true →
    ∀ (rest : Bytes) (fuel : Nat),
      2 * (encodeItem it).length + 2 * rest.length + 1 ≤ fuel →
      parseItem fuel (encodeItem it ++ rest) = some (it, rest)
  | .bytes d, hwf, rest, fuel, hfuel => by
    have hd : d.length < 2 ^ 31 := by
      have h := hwf; rw [itemWF] at h; exact of_decide_eq_true h
    exact parseItem_rlpEncodeString hd rest fuel (by omega)
  | .list its, hwf, rest, fuel, hfuel => by
    rw [itemWF, Bool.and_eq_true] at hwf
    have hp : (encodeItemsPayload its).length < 2 ^ 31 := of_decide_eq_true hwf.1
    have hwfits : itemsWF its = true := hwf.2
    rw [encodeItem] at hfuel ⊢
    rw [List.append_assoc]
    have hfuel' : 2 * (encodeListHeader (encodeItemsPayload its).length).length
        + 2 * (encodeItemsPayload its).length + 2 * rest.length + 1 ≤ fuel := by
      simp only [List.length_append] at hfuel; omega
    clear hfuel
    match fuel, hfuel' with
    | fuel + 1, hfuel =>
    have hhead : 0 < (encodeListHeader (encodeItemsPayload its).length).length :=
      encodeListHeader_length_pos _
    have hitems : parseItems fuel (encodeItemsPayload its) = some its :=
      parseItems_encodeItemsPayload its hwfits fuel (by omega)
    unfold encodeListHeader at hfuel ⊢
    split
    · next hshort =>
      rw [List.cons_append, parseItem]
      rw [if_neg (by omega), if_neg (by omega), if_neg (by omega),
        if_pos (by omega),
        show (0xc0 + (encodeItemsPayload its).length - 0xc0)
          = (encodeItemsPayload its).length by omega]
      simp only [List.nil_append]
      rw [if_pos (by simp only [List.length_append]; omega),
        List.take_left, List.drop_left, hitems]
    · next hlong =>
      have hL1 : 0 < (encodeLengthBytes (encodeItemsPayload its).length).length :=
        encodeLengthBytes_length_pos _
      have hL4 : (encodeLengthBytes (encodeItemsPayload its).length).length ≤ 4 :=
        encodeLengthBytes_length_le _
      rw [List.cons_append, parseItem]
      rw [if_neg (by omega), if_neg (by omega), if_neg (by omega),
        if_neg (by omega),
        show (0xf7 + (encodeLengthBytes (encodeItemsPayload its).length).length - 0xf7)
          = (encodeLengthBytes (encodeItemsPayload its).length).length by omega,
        if_pos (by simp only [List.length_append]; omega),
        List.take_left, List.drop_left,
        decodeScalar_encodeLengthBytes hp,
        if_pos (by simp only [List.length_append]; omega),
        List.take_left, List.drop_left, hitems]
theorem parseItems_encodeItemsPayload : ∀ (its : List RLPItem), itemsWF its = true →
    ∀ (fuel : Nat), 2 * (encodeItemsPayload its).length + 2 ≤ fuel →
    parseItems fuel (encodeItemsPayload its) = some its
  | [], _, fuel, hfuel => by
    match fuel, hfuel with
    | fuel + 1, _ => rw [encodeItemsPayload]; rfl
  | it :: its, hwf, fuel, hfuel => by
    rw [itemsWF, Bool.and_eq_true] at hwf
    rw [encodeItemsPayload] at hfuel ⊢
    have hpos : 0 < (encodeItem it).length := encodeItem_length_pos it
    have hfuel' : 2 * (encodeItem it).length + 2 * (encodeItemsPayload its).length
        + 2 ≤ fuel := by
      simp only [List.length_append] at hfuel; omega
    clear hfuel
    match fuel, hfuel' with
    | fuel + 1, hfuel =>
    have hne : encodeItem it ++ encodeItemsPayload its ≠ [] := by
      intro hc
      have hc' := congrArg List.length hc
      simp only [List.length_append, List.length_nil] at hc'
      omega
    match hEnc : encodeItem it ++ encodeItemsPayload its, hne with
    | b :: bs, _ =>
      rw [parseItems, ← hEnc,
        parseItem_encodeItem it hwf.1 (encodeItemsPayload its) fuel (by omega)]
      simp only [parseItems_encodeItemsPayload its hwf.2 fuel (by omega)]
end

theorem rlpDecode_encodeItem {it : RLPItem} (hwf : itemWF it = true) :
    rlpDecode (encodeItem it) = some it := by
  rw [rlpDecode]
  have h := parseItem_encodeItem it hwf [] (2 * (encodeItem it).length + 2) (by simp)
  rw [List.append_nil] at h
  rw [h]

/-! ## The writer's element buffer (`RLPWriter` in `rlp.ts`)

An `RLPWriter` holds a list of elements; each `write*` call pushes one.
`bytes` is re-encoded as an RLP string on `encode()`, `raw` is emitted
verbatim, `list` is encoded recursively.  `encode()` is `encodeElements` on
the pushed list. -/

inductive RLPElement where
  | bytes : Bytes → RLPElement
  | raw : Bytes → RLPElement
  | list : List RLPElement → RLPElement

mutual
/-- One element's contribution to the output (the loop body of
`RLPWriter.encodeElements`): `bytes` is RLP-string encoded, `raw` emitted
verbatim, a nested list recursively encoded (header over payload size). -/
def encodePart : RLPElement → Bytes
  | .bytes d => rlpEncodeString d
  | .raw d => d
  | .list els => encodeListHeader (encodeParts els).length ++ encodeParts els
/-- The concatenated contributions of the elements (the writer's
`encodedParts`, flattened). -/
def encodeParts : List RLPElement → Bytes
  | [] => []
  | e :: es => encodePart e ++ encodeParts es
end

/-- `RLPWriter.encode` / `encodeElements`: list header over the payload
size, then the parts. -/
def encodeElements (els : List RLPElement) : Bytes :=
  encodeListHeader (encodeParts els).length ++ encodeParts els

theorem encodePart_list (els : List RLPElement) :
    encodePart (.list els) = encodeElements els := rfl

/-- An element buffer whose parts coincide with an item list's payload
serializes to that item list's canonical encoding. -/
theorem encodeElements_eq_encodeItem {els : List RLPElement} {its : List RLPItem}
    (h : encodeParts els = encodeItemsPayload its) :
    encodeElements els = encodeItem (.list its) := by
  rw [encodeElements, encodeItem, h]

/-- `RLPWriter.writeEmptyList`: pushes the raw byte `0xc0`. -/
def writeEmptyListElem : RLPElement := .raw [0xc0]

/-- `RLPWriter.writeScalar` (also `writeIntScalar`, `writeLongScalar`,
`writeBigIntegerScalar`, `writeWeiScalar`): pushes the minimal scalar
bytes. -/
def writeScalarElem (v : Nat) : RLPElement := .bytes (encodeScalar v)

/-- `RLPWriter.writeOptionalBytes`: empty list when absent, else a
one-element sublist holding the bytes. -/
def writeOptionalBytesElem : Option Bytes → RLPElement
  | none => writeEmptyListElem
  | some v => .list [.bytes v]

/-- `RLPWriter.writeOptionalLongScalar` and `writeOptionalWeiScalar`:
empty list when absent, else a one-element sublist holding the scalar. -/
def writeOptionalLongScalarElem : Option Nat → RLPElement
  | none => writeEmptyListElem
  | some v => .list [writeScalarElem v]

/-- `RLPWriter.writeOptionalRaw`: empty list when absent, else a
one-element sublist holding already-encoded RLP. -/
def writeOptionalRawElem : Option Bytes → RLPElement
  | none => writeEmptyListElem
  | some v => .list [.raw v]

/-- `RLPWriter.writeOptionalBytes32`: same wrapping as optional bytes. -/
def writeOptionalBytes32Elem : Option Bytes → RLPElement
  | none => writeEmptyListElem
  | some v => .list [.bytes v]

/-- The `startList`/`writeBytes`/`addList` pattern used by
`writeOptionalAddress` (TxEncoder.ts) and `writeOptionalString` /
`writeOptionalAddressField` (PayloadCodec.ts). -/
def writeOptionalSublistElem : Option Bytes → RLPElement
  | none => writeEmptyListElem
  | some v => .list [.bytes v]

/-- `writeOptionalBigInteger` (PayloadCodec.ts). -/
def writeOptionalBigIntegerElem : Option Nat → RLPElement
  | none => writeEmptyListElem
  | some v => .list [writeScalarElem v]

/-! ## Enums (`src/enums.ts`) -/

inductive TxType where
  | TRANSFER
  | BIP_CREATE
  | BIP_VOTE
deriving DecidableEq

/-- Numeric codes of `TxType`. -/
def txTypeCode : TxType → Nat
  | .TRANSFER => 0
  | .BIP_CREATE => 1
  | .BIP_VOTE => 2

/-- `txTypeFromCode`: `none` models the thrown `Unknown TxType code`. -/
def txTypeFromCode (c : Nat) : Option TxType :=
  if c = 0 then some .TRANSFER
  else if c = 1 then some .BIP_CREATE
  else if c = 2 then some .BIP_VOTE
  else none

inductive Network where
  | MAINNET
  | TESTNET
deriving DecidableEq

/-- Numeric codes of `Network`. -/
def networkCode : Network → Nat
  | .MAINNET => 0
  | .TESTNET => 1

/-- `networkFromCode`: `none` models the thrown `Unknown Network code`. -/
def networkFromCode (c : Nat) : Option Network :=
  if c = 0 then some .MAINNET
  else if c = 1 then some .TESTNET
  else none

/-- `txVersionFromCode`: the only member of `TxVersion` is `V1 = 1`. -/
def txVersionFromCode (c : Nat) : Option Nat :=
  if c = 1 then some 1 else none

/-- `TxPayloadType` (`src/enums.ts`): exactly ten members, codes 0–9.
No validator members exist. -/
inductive TxPayloadType where
  | BIP_ADDRESS_ALIAS_ADD
  | BIP_ADDRESS_ALIAS_REMOVE
  | BIP_AUTHORITY_ADD
  | BIP_AUTHORITY_REMOVE
  | BIP_NETWORK_PARAMS_SET
  | BIP_TOKEN_BURN
  | BIP_TOKEN_CREATE
  | BIP_TOKEN_MINT
  | BIP_TOKEN_UPDATE
  | BIP_VOTE
deriving DecidableEq

/-- Numeric codes of `TxPayloadType` members. -/
def TxPayloadType.code : TxPayloadType → Nat
  | .BIP_ADDRESS_ALIAS_ADD => 0
  | .BIP_ADDRESS_ALIAS_REMOVE => 1
  | .BIP_AUTHORITY_ADD => 2
  | .BIP_AUTHORITY_REMOVE => 3
  | .BIP_NETWORK_PARAMS_SET => 4
  | .BIP_TOKEN_BURN => 5
  | .BIP_TOKEN_CREATE => 6
  | .BIP_TOKEN_MINT => 7
  | .BIP_TOKEN_UPDATE => 8
  | .BIP_VOTE => 9

/-- `txPayloadTypeFromCode`: accepts a code iff some member carries it
(the source checks membership in `Object.values(TxPayloadType)`). -/
def txPayloadTypeFromCode (c : Nat) : Option Nat :=
  if c ≤ 9 then some c else none

/-- `BipVoteType` codes: `DISAPPROVAL = 0`, `APPROVAL = 1`. -/
def BipVoteType.APPROVAL : Nat := 1

/-- `BipVoteType.DISAPPROVAL`. -/
def BipVoteType.DISAPPROVAL : Nat := 0

/-! ## Payloads (`src/tx/payloads/types.ts`, runtime shapes)

One constructor per `AnyTxPayload` variant; the `payloadType` tag of the
TypeScript records is determined by the constructor (`payloadTypeCode`).
Strings are carried as their UTF-8 bytes (`encodeString`/`decodeString` in
`rlp.ts` are the UTF-8 bijection), addresses as 20-byte lists. -/

inductive Payload where
  | tokenMint (tokenAddress recipient : Bytes) (amount : Nat)
  | tokenBurn (tokenAddress sender : Bytes) (amount : Nat)
  | tokenCreate (name smallestUnitName : Bytes) (numberOfDecimals : Nat)
      (websiteUrl logoUrl : Option Bytes) (maxSupply : Option Nat)
      (userBurnable : Bool)
  | tokenUpdate (tokenAddress : Bytes)
      (name smallestUnitName websiteUrl logoUrl : Option Bytes)
  | vote (voteType : Nat)
  | addressAliasAdd (address aliasName : Bytes)
  | addressAliasRemove (aliasName : Bytes)
  | authorityAdd (authorityAddress : Bytes)
  | authorityRemove (authorityAddress : Bytes)
  | networkParamsSet (blockReward : Option Nat)
      (blockRewardPoolAddress : Option Bytes)
      (targetMiningTimeMs asertHalfLifeBlocks minDifficulty
        minTxBaseFee minTxByteFee : Option Nat)
deriving DecidableEq

/-- The `payloadType` tag each factory stores (`TxPayloadType` codes). -/
def payloadTypeCode : Payload → Nat
  | .addressAliasAdd .. => 0
  | .addressAliasRemove .. => 1
  | .authorityAdd .. => 2
  | .authorityRemove .. => 3
  | .networkParamsSet .. => 4
  | .tokenBurn .. => 5
  | .tokenCreate .. => 6
  | .tokenMint .. => 7
  | .tokenUpdate .. => 8
  | .vote .. => 9

/-- JavaScript `x || null` on an optional string: the empty string is falsy
(`encodePayload` uses `p.websiteUrl || null` in the TOKEN_CREATE arm). -/
def orNullIfEmpty : Option Bytes → Option Bytes
  | some [] => none
  | x => x

/-- The element sequence `encodePayload` pushes for a non-null payload:
the payload-type scalar first, then the variant's fields
(PayloadCodec.ts, `encodePayload` switch). -/
def payloadElements (p : Payload) : List RLPElement :=
  writeScalarElem (payloadTypeCode p) ::
  match p with
  | .tokenMint ta r a => [.bytes ta, .bytes r, writeScalarElem a]
  | .tokenBurn ta s a => [.bytes ta, .bytes s, writeScalarElem a]
  | .tokenCreate n su d w l m b =>
      [.bytes n, .bytes su, writeScalarElem d,
       writeOptionalSublistElem (orNullIfEmpty w),
       writeOptionalSublistElem (orNullIfEmpty l),
       writeOptionalBigIntegerElem m,
       writeScalarElem (if b then 1 else 0)]
  | .tokenUpdate ta n su w l =>
      [.bytes ta, writeOptionalSublistElem n, writeOptionalSublistElem su,
       writeOptionalSublistElem w, writeOptionalSublistElem l]
  | .vote v => [writeScalarElem v]
  | .addressAliasAdd addr al => [.bytes al, .bytes addr]
  | .addressAliasRemove al => [.bytes al]
  | .authorityAdd a => [.bytes a]
  | .authorityRemove a => [.bytes a]
  | .networkParamsSet br pool tmt ahl md mbf mbyf =>
      [writeOptionalLongScalarElem br, writeOptionalSublistElem pool,
       writeOptionalLongScalarElem tmt, writeOptionalLongScalarElem ahl,
       writeOptionalBigIntegerElem md, writeOptionalLongScalarElem mbf,
       writeOptionalLongScalarElem mbyf]

/-- `EMPTY_LIST` (`rlp.ts`): the one-byte encoding `0xc0`. -/
def EMPTY_LIST : Bytes := [0xc0]

/-- `encodePayload` (PayloadCodec.ts): `EMPTY_LIST` for `null`, otherwise
the writer output over the variant's elements. -/
def encodePayload : Option Payload → Bytes
  | none => EMPTY_LIST
  | some p => encodeElements (payloadElements p)

/-! Item-level views of the optional wrappers, for the round-trip proofs. -/

/-- Item produced by an optionally wrapped scalar. -/
def optScalarItem : Option Nat → RLPItem
  | none => .list []
  | some v => .list [.bytes (encodeScalar v)]

/-- Item produced by optionally wrapped bytes. -/
def optBytesItem : Option Bytes → RLPItem
  | none => .list []
  | some v => .list [.bytes v]

/-- The RLP item list a non-null payload's writer output parses back to. -/
def payloadItems (p : Payload) : List RLPItem :=
  .bytes (encodeScalar (payloadTypeCode p)) ::
  match p with
  | .tokenMint ta r a => [.bytes ta, .bytes r, .bytes (encodeScalar a)]
  | .tokenBurn ta s a => [.bytes ta, .bytes s, .bytes (encodeScalar a)]
  | .tokenCreate n su d w l m b =>
      [.bytes n, .bytes su, .bytes (encodeScalar d),
       optBytesItem (orNullIfEmpty w), optBytesItem (orNullIfEmpty l),
       optScalarItem m, .bytes (encodeScalar (if b then 1 else 0))]
  | .tokenUpdate ta n su w l =>
      [.bytes ta, optBytesItem n, optBytesItem su, optBytesItem w, optBytesItem l]
  | .vote v => [.bytes (encodeScalar v)]
  | .addressAliasAdd addr al => [.bytes al, .bytes addr]
  | .addressAliasRemove al => [.bytes al]
  | .authorityAdd a => [.bytes a]
  | .authorityRemove a => [.bytes a]
  | .networkParamsSet br pool tmt ahl md mbf mbyf =>
      [optScalarItem br, optBytesItem pool, optScalarItem tmt,
       optScalarItem ahl, optScalarItem md, optScalarItem mbf,
       optScalarItem mbyf]

theorem encodePart_writeScalarElem (v : Nat) :
    encodePart (writeScalarElem v) = encodeItem (.bytes (encodeScalar v)) := rfl

theorem encodePart_writeEmptyListElem :
    encodePart writeEmptyListElem = encodeItem (.list []) := by
  simp [writeEmptyListElem, encodePart, encodeItem, encodeItemsPayload, encodeListHeader]

theorem encodePart_writeOptionalSublistElem (o : Option Bytes) :
    encodePart (writeOptionalSublistElem o) = encodeItem (optBytesItem o) := by
  cases o with
  | none => exact encodePart_writeEmptyListElem
  | some v =>
    simp [writeOptionalSublistElem, optBytesItem, encodePart, encodeElements,
      encodeParts, encodeItem, encodeItemsPayload]

theorem encodePart_writeOptionalBytesElem (o : Option Bytes) :
    encodePart (writeOptionalBytesElem o) = encodeItem (optBytesItem o) := by
  cases o with
  | none => exact encodePart_writeEmptyListElem
  | some v =>
    simp [writeOptionalBytesElem, optBytesItem, encodePart, encodeElements,
      encodeParts, encodeItem, encodeItemsPayload]

theorem encodePart_writeOptionalBytes32Elem (o : Option Bytes) :
    encodePart (writeOptionalBytes32Elem o) = encodeItem (optBytesItem o) := by
  cases o with
  | none => exact encodePart_writeEmptyListElem
  | some v =>
    simp [writeOptionalBytes32Elem, optBytesItem, encodePart, encodeElements,
      encodeParts, encodeItem, encodeItemsPayload]

theorem encodePart_writeOptionalLongScalarElem (o : Option Nat) :
    encodePart (writeOptionalLongScalarElem o) = encodeItem (optScalarItem o) := by
  cases o with
  | none => exact encodePart_writeEmptyListElem
  | some v =>
    simp [writeOptionalLongScalarElem, optScalarItem, writeScalarElem, encodePart,
      encodeElements, encodeParts, encodeItem, encodeItemsPayload]

theorem encodePart_writeOptionalBigIntegerElem (o : Option Nat) :
    encodePart (writeOptionalBigIntegerElem o) = encodeItem (optScalarItem o) := by
  cases o with
  | none => exact encodePart_writeEmptyListElem
  | some v =>
    simp [writeOptionalBigIntegerElem, optScalarItem, writeScalarElem, encodePart,
      encodeElements, encodeParts, encodeItem, encodeItemsPayload]

theorem encodeParts_payloadElements (p : Payload) :
    encodeParts (payloadElements p) = encodeItemsPayload (payloadItems p) := by
  cases p <;>
    simp [payloadElements, payloadItems, encodeParts, encodeItemsPayload,
      writeScalarElem, encodePart_writeOptionalSublistElem,
      encodePart_writeOptionalLongScalarElem, encodePart_writeOptionalBigIntegerElem,
      encodePart, encodeItem]

/-- A non-null payload's writer output is the canonical encoding of its
item list. -/
theorem encodePayload_some (p : Payload) :
    encodePayload (some p) = encodeItem (.list (payloadItems p)) :=
  encodeElements_eq_encodeItem (encodeParts_payloadElements p)

theorem two_le_encodePayload_some (p : Payload) :
    2 ≤ (encodePayload (some p)).length := by
  rw [encodePayload_some, encodeItem]
  have h1 : 0 < (encodeListHeader (encodeItemsPayload (payloadItems p)).length).length :=
    encodeListHeader_length_pos _
  have h2 : 0 < (encodeItemsPayload (payloadItems p)).length := by
    rw [payloadItems.eq_def, encodeItemsPayload]
    have := encodeItem_length_pos (.bytes (encodeScalar (payloadTypeCode p)))
    simp only [List.length_append]
    omega
  simp only [List.length_append]
  omega

/-! ## Transactions (`src/tx/Tx.ts` shapes)

`TxData` carries the thirteen serialized fields (the signature optional:
`null` on the unsigned form); `Tx` adds the derived `sender`, `hash` and
`size`. -/

structure TxData where
  version : Nat
  timestamp : Nat
  type : TxType
  network : Network
  nonce : Option Nat
  recipient : Option Bytes
  tokenAddress : Option Bytes
  amount : Option Nat
  fee : Nat
  message : Option Bytes
  payload : Option Payload
  referenceHash : Option Bytes
  signature : Option Bytes
deriving DecidableEq

structure Tx extends TxData where
  sender : Bytes
  hash : Bytes
  size : Nat
deriving DecidableEq

/-- Errors of the codec and crypto layers (`throw new Error(...)` sites),
tagged by site. -/
inductive CodecErr where
  | emptyInput
  | expectedList
  | missingField
  | unsupportedVersion (v : Nat)
  | unknownCode (c : Nat)
  | invalidLength (got expected : Nat)
  | invalidSignatureLength (got : Nat)
  | invalidRLP
  | recoverFailed
deriving DecidableEq

/-! ## Transaction encoder (`src/serialization/TxEncoder.ts`) -/

/-- `isEmptyPayload` (TxEncoder.ts): one byte equal to `0xc0`. -/
def isEmptyPayload (bs : Bytes) : Prop := bs.length = 1 ∧ bs.headD 0 = 0xc0

instance (bs : Bytes) : Decidable (isEmptyPayload bs) := instDecidableAnd

/-- The element `encodeTxV1` pushes at the payload position: an empty list
when the encoded payload is empty or the `0xc0` marker, otherwise
`writeOptionalRaw` over the already-encoded payload bytes. -/
def payloadElement (p : Option Payload) : RLPElement :=
  let payloadBytes := encodePayload p
  if payloadBytes.length = 0 ∨ isEmptyPayload payloadBytes then writeEmptyListElem
  else writeOptionalRawElem (some payloadBytes)

/-- The element sequence `encodeTxV1` pushes, in source order
(TxEncoder.ts lines 43–93).  The signature is appended only when
`includeSignature` is set and the transaction carries one, as a bare
`writeBytes`. -/
def txV1Elements (tx : TxData) (includeSignature : Bool) : List RLPElement :=
  [writeScalarElem tx.version,
   writeScalarElem tx.timestamp,
   writeScalarElem (txTypeCode tx.type),
   writeScalarElem (networkCode tx.network),
   writeOptionalLongScalarElem tx.nonce,
   writeOptionalSublistElem tx.recipient,
   writeOptionalSublistElem tx.tokenAddress,
   writeOptionalLongScalarElem tx.amount,
   writeScalarElem tx.fee,
   writeOptionalBytesElem tx.message,
   payloadElement tx.payload,
   writeOptionalBytes32Elem tx.referenceHash]
  ++ (if includeSignature then
        match tx.signature with
        | some s => [RLPElement.bytes s]
        | none => []
      else [])

/-- `encodeTxV1`: the writer output over the element sequence. -/
def encodeTxV1 (tx : TxData) (includeSignature : Bool) : Bytes :=
  encodeElements (txV1Elements tx includeSignature)

/-- `encodeTx`: dispatch on the version, only V1 is supported. -/
def encodeTx (tx : TxData) (includeSignature : Bool) : Except CodecErr Bytes :=
  if tx.version = 1 then .ok (encodeTxV1 tx includeSignature)
  else .error (.unsupportedVersion tx.version)

/-- `hashForSigning` (`src/utils/TxUtil.ts`): Keccak of the encoding
without signature. -/
def hashForSigning (keccak : Bytes → Bytes) (tx : TxData) : Except CodecErr Bytes :=
  (encodeTx tx false).map keccak

/-- `hashTx` (`src/utils/TxUtil.ts`): Keccak of the encoding with
signature. -/
def hashTx (keccak : Bytes → Bytes) (tx : TxData) : Except CodecErr Bytes :=
  (encodeTx tx true).map keccak

/-- `sizeTx` (`src/utils/TxUtil.ts`): byte length of the encoding with
signature. -/
def sizeTx (tx : TxData) : Except CodecErr Nat :=
  (encodeTx tx true).map List.length

/-- The item the payload position parses back to. -/
def payloadItemOf : Option Payload → RLPItem
  | none => .list []
  | some p => .list [.list (payloadItems p)]

theorem encodePart_payloadElement (p : Option Payload) :
    encodePart (payloadElement p) = encodeItem (payloadItemOf p) := by
  cases p with
  | none =>
    rw [show payloadElement none = writeEmptyListElem by
      rw [payloadElement]; exact if_pos (Or.inr (by constructor <;> rfl))]
    exact encodePart_writeEmptyListElem
  | some p =>
    have h2 : 2 ≤ (encodePayload (some p)).length := two_le_encodePayload_some p
    rw [payloadElement]
    rw [if_neg (by rw [isEmptyPayload]; omega)]
    rw [payloadItemOf, writeOptionalRawElem]
    rw [encodePart, encodeParts, encodeParts, encodePart]
    rw [encodeItem, encodeItemsPayload, encodeItemsPayload, encodePayload_some p]

/-- The RLP item list the V1 encoding parses back to. -/
def txV1Items (tx : TxData) (includeSignature : Bool) : List RLPItem :=
  [.bytes (encodeScalar tx.version),
   .bytes (encodeScalar tx.timestamp),
   .bytes (encodeScalar (txTypeCode tx.type)),
   .bytes (encodeScalar (networkCode tx.network)),
   optScalarItem tx.nonce,
   optBytesItem tx.recipient,
   optBytesItem tx.tokenAddress,
   optScalarItem tx.amount,
   .bytes (encodeScalar tx.fee),
   optBytesItem tx.message,
   payloadItemOf tx.payload,
   optBytesItem tx.referenceHash]
  ++ (if includeSignature then
        match tx.signature with
        | some s => [RLPItem.bytes s]
        | none => []
      else [])

theorem encodeParts_txV1Elements (tx : TxData) (includeSignature : Bool) :
    encodeParts (txV1Elements tx includeSignature)
      = encodeItemsPayload (txV1Items tx includeSignature) := by
  cases includeSignature <;> cases hs : tx.signature <;>
    simp [txV1Elements, txV1Items, hs, encodeParts, encodeItemsPayload,
      writeScalarElem, encodePart_writeOptionalSublistElem,
      encodePart_writeOptionalLongScalarElem, encodePart_writeOptionalBytesElem,
      encodePart_writeOptionalBytes32Elem, encodePart_payloadElement,
      encodePart, encodeItem]

/-- The V1 encoder's output is the canonical encoding of its item list. -/
theorem encodeTxV1_eq_encodeItem (tx : TxData) (includeSignature : Bool) :
    encodeTxV1 tx includeSignature
      = encodeItem (.list (txV1Items tx includeSignature)) :=
  encodeElements_eq_encodeItem (encodeParts_txV1Elements tx includeSignature)

/-! ## Decoding helpers (`rlp.ts`)

The `item as Uint8Array` casts in the decoders feed decoded items into
byte-level helpers; when the item is actually a nested list the JavaScript
helpers misbehave on the non-`Uint8Array` value, surfaced here as a framing
error. -/

def asBytes : RLPItem → Except CodecErr Bytes
  | .bytes d => .ok d
  | .list _ => .error .invalidRLP

/-- `isEmptyList` (`rlp.ts`): an empty array or an empty byte string. -/
def isEmptyList : RLPItem → Bool
  | .list [] => true
  | .bytes [] => true
  | _ => false

/-- `decodeOptionalBytes` (`rlp.ts`): empty list → absent; one-element list
→ the inner bytes; longer list → `null`; bare bytes → themselves unless
empty. -/
def decodeOptionalBytes (it : RLPItem) : Except CodecErr (Option Bytes) :=
  if isEmptyList it then .ok none
  else match it with
    | .list [x] => (asBytes x).map some
    | .list _ => .ok none
    | .bytes d => .ok (if d.length = 0 then none else some d)

/-- `decodeAddress` (`rlp.ts`): exactly 20 bytes. -/
def decodeAddress (bs : Bytes) : Except CodecErr Bytes :=
  if bs.length = 20 then .ok bs else .error (.invalidLength bs.length 20)

/-- `decodeHash` (`rlp.ts`): exactly 32 bytes. -/
def decodeHash (bs : Bytes) : Except CodecErr Bytes :=
  if bs.length = 32 then .ok bs else .error (.invalidLength bs.length 32)

/-- `decodeOptionalAddress`. -/
def decodeOptionalAddress (it : RLPItem) : Except CodecErr (Option Bytes) := do
  let b ← decodeOptionalBytes it
  match b with
  | none => .ok none
  | some bs => if bs.length = 0 then .ok none else (decodeAddress bs).map some

/-- `decodeOptionalHash`. -/
def decodeOptionalHash (it : RLPItem) : Except CodecErr (Option Bytes) := do
  let b ← decodeOptionalBytes it
  match b with
  | none => .ok none
  | some bs => if bs.length = 0 then .ok none else (decodeHash bs).map some

/-- `decodeOptionalBigint`. -/
def decodeOptionalBigint (it : RLPItem) : Except CodecErr (Option Nat) :=
  if isEmptyList it then .ok none
  else match it with
    | .list [x] => (asBytes x).map (fun bs => some (decodeScalar bs))
    | .list _ => .ok none
    | .bytes d => .ok (if d.length = 0 then none else some (decodeScalar d))

/-- `decodeOptionalString` (strings carried as UTF-8 bytes). -/
def decodeOptionalString (it : RLPItem) : Except CodecErr (Option Bytes) := do
  let b ← decodeOptionalBytes it
  match b with
  | none => .ok none
  | some bs => .ok (if bs.length = 0 then none else some bs)

/-! Optional decoders applied at a possibly missing index: the JavaScript
helpers, given `undefined`, fall through every branch and yield `null`. -/

def decodeOptionalBytesAt : Option RLPItem → Except CodecErr (Option Bytes)
  | none => .ok none
  | some it => decodeOptionalBytes it

def decodeOptionalAddressAt : Option RLPItem → Except CodecErr (Option Bytes)
  | none => .ok none
  | some it => decodeOptionalAddress it

def decodeOptionalHashAt : Option RLPItem → Except CodecErr (Option Bytes)
  | none => .ok none
  | some it => decodeOptionalHash it

def decodeOptionalBigintAt : Option RLPItem → Except CodecErr (Option Nat)
  | none => .ok none
  | some it => decodeOptionalBigint it

def decodeOptionalStringAt : Option RLPItem → Except CodecErr (Option Bytes)
  | none => .ok none
  | some it => decodeOptionalString it

/-- Mandatory access `data[i] as Uint8Array` fed to a byte-level decoder:
a missing index (JavaScript `undefined`) throws inside the helper. -/
def atBytes (data : List RLPItem) (i : Nat) : Except CodecErr Bytes :=
  match data[i]? with
  | none => .error .missingField
  | some it => asBytes it

/-! ## Payload decoder (`src/serialization/PayloadCodec.ts`) -/

/-- The shared part of `decodePayload` once the input is an item list:
empty → null payload; a single nested list is the optional wrapper and is
unwrapped; then the payload-type code dispatches the field extraction. -/
def decodePayloadItems (data0 : List RLPItem) : Except CodecErr (Option Payload) :=
  match data0 with
  | [] => .ok none
  | _ =>
    let data := match data0 with
      | [.list inner] => inner
      | _ => data0
    match data with
    | [] => .ok none
    | d0 :: _ => do
      let typeBytes ← asBytes d0
      match txPayloadTypeFromCode (decodeScalar typeBytes) with
      | none => .error (.unknownCode (decodeScalar typeBytes))
      | some 0 => do
          let al ← atBytes data 1
          let addr ← decodeAddress (← atBytes data 2)
          .ok (some (.addressAliasAdd addr al))
      | some 1 => do
          let al ← atBytes data 1
          .ok (some (.addressAliasRemove al))
      | some 2 => do
          let a ← decodeAddress (← atBytes data 1)
          .ok (some (.authorityAdd a))
      | some 3 => do
          let a ← decodeAddress (← atBytes data 1)
          .ok (some (.authorityRemove a))
      | some 4 => do
          let br ← decodeOptionalBigintAt data[1]?
          let pool ← decodeOptionalAddressAt data[2]?
          let tmt ← decodeOptionalBigintAt data[3]?
          let ahl ← decodeOptionalBigintAt data[4]?
          let md ← decodeOptionalBigintAt data[5]?
          let mbf ← decodeOptionalBigintAt data[6]?
          let mbyf ← decodeOptionalBigintAt data[7]?
          .ok (some (.networkParamsSet br pool tmt ahl md mbf mbyf))
      | some 5 => do
          let ta ← decodeAddress (← atBytes data 1)
          let snd ← decodeAddress (← atBytes data 2)
          let amt ← atBytes data 3
          .ok (some (.tokenBurn ta snd (decodeScalar amt)))
      | some 6 => do
          let nm ← atBytes data 1
          let su ← atBytes data 2
          let dec ← atBytes data 3
          let web ← decodeOptionalStringAt data[4]?
          let logo ← decodeOptionalStringAt data[5]?
          let ms ← decodeOptionalBigintAt data[6]?
          let burn ← atBytes data 7
          .ok (some (.tokenCreate nm su (decodeScalar dec)
            (some (web.getD [])) (some (logo.getD [])) (some (ms.getD 0))
            (decodeScalar burn = 1)))
      | some 7 => do
          let ta ← decodeAddress (← atBytes data 1)
          let rc ← decodeAddress (← atBytes data 2)
          let amt ← atBytes data 3
          .ok (some (.tokenMint ta rc (decodeScalar amt)))
      | some 8 => do
          let ta ← decodeAddress (← atBytes data 1)
          let nm ← decodeOptionalStringAt data[2]?
          let su ← decodeOptionalStringAt data[3]?
          let web ← decodeOptionalStringAt data[4]?
          let logo ← decodeOptionalStringAt data[5]?
          .ok (some (.tokenUpdate ta nm su web logo))
      | some 9 => do
          let v ← atBytes data 1
          .ok (some (.vote (decodeScalar v)))
      | some c => .error (.unknownCode c)

/-- `decodePayload`: bytes input is checked for the null markers and RLP
decoded; list input goes straight to the shared extraction. -/
def decodePayload (it : RLPItem) : Except CodecErr (Option Payload) :=
  match it with
  | .bytes bs =>
    if bs.length = 0 ∨ (bs.length = 1 ∧ bs.headD 0 = 0xc0) then .ok none
    else match rlpDecode bs with
      | some (.list items) => decodePayloadItems items
      | some (.bytes _) => .error .expectedList
      | none => .error .invalidRLP
  | .list items => decodePayloadItems items

/-- `decodePayload` at a possibly missing index: `undefined` is not an
array, so the decoder returns `null`. -/
def decodePayloadAt : Option RLPItem → Except CodecErr (Option Payload)
  | none => .ok none
  | some it => decodePayload it

/-! ## Transaction decoder (`src/serialization/TxDecoder.ts`) -/

/-- `txVersionFromCode` as the throwing helper it is in the source. -/
def txVersionFromCodeE (c : Nat) : Except CodecErr Nat :=
  match txVersionFromCode c with
  | some v => .ok v
  | none => .error (.unknownCode c)

/-- `txTypeFromCode` as the throwing helper it is in the source. -/
def txTypeFromCodeE (c : Nat) : Except CodecErr TxType :=
  match txTypeFromCode c with
  | some t => .ok t
  | none => .error (.unknownCode c)

/-- `networkFromCode` as the throwing helper it is in the source. -/
def networkFromCodeE (c : Nat) : Except CodecErr Network :=
  match networkFromCode c with
  | some n => .ok n
  | none => .error (.unknownCode c)

/-- The signature extraction of `decodeTxV1`: `items[12]` must be present
(`!sigBytes` throws with observed length 0) and `toSignature` requires
exactly 65 bytes. -/
def toSignatureE : Option RLPItem → Except CodecErr Bytes
  | none => .error (.invalidSignatureLength 0)
  | some it => do
    let bs ← asBytes it
    if bs.length = 65 then .ok bs
    else .error (.invalidSignatureLength bs.length)

/-- `recoverAddress` as the source's throwing call: `none` from the
primitive is the thrown recovery error. -/
def recoverAddressE (recover : Bytes → Bytes → Option Bytes)
    (messageHash sigBytes : Bytes) : Except CodecErr Bytes :=
  match recover messageHash sigBytes with
  | some a => .ok a
  | none => .error .recoverFailed

/-- `decodeTxV1`: field extraction from the decoded item list, then sender
recovery over the signing hash of the partial record (whose nonce is
`nonce ?? 0n` and whose signature is `null`), then the canonical hash of
the full record and the input's byte length as size.  `keccak` and
`recover` are the external Keccak-256 and secp256k1 primitives (`hash` and
`recoverAddress` in `PrivateKey.ts`); `recover` returns `none` where
`recoverAddress` throws. -/
def decodeTxV1 (keccak : Bytes → Bytes) (recover : Bytes → Bytes → Option Bytes)
    (items : List RLPItem) (originalBytes : Bytes) : Except CodecErr Tx := do
  let versionBytes ← atBytes items 0
  let version ← txVersionFromCodeE (decodeScalar versionBytes)
  let timestampBytes ← atBytes items 1
  let typeBytes ← atBytes items 2
  let type ← txTypeFromCodeE (decodeScalar typeBytes)
  let networkBytes ← atBytes items 3
  let network ← networkFromCodeE (decodeScalar networkBytes)
  let nonce ← decodeOptionalBigintAt items[4]?
  let recipient ← decodeOptionalAddressAt items[5]?
  let tokenAddress ← decodeOptionalAddressAt items[6]?
  let amount ← decodeOptionalBigintAt items[7]?
  let feeBytes ← atBytes items 8
  let message ← decodeOptionalBytesAt items[9]?
  let payload ← decodePayloadAt items[10]?
  let referenceHash ← decodeOptionalHashAt items[11]?
  let signature ← toSignatureE items[12]?
  let preTx : TxData := {
    version := version, timestamp := decodeScalar timestampBytes,
    type := type, network := network,
    nonce := some (nonce.getD 0), recipient := recipient,
    tokenAddress := tokenAddress, amount := amount,
    fee := decodeScalar feeBytes, message := message,
    payload := payload, referenceHash := referenceHash,
    signature := none }
  let signingHash ← hashForSigning keccak preTx
  let sender ← recoverAddressE recover signingHash signature
  let txData : TxData := { preTx with signature := some signature }
  let hashBytes ← hashTx keccak txData
  Except.ok { toTxData := txData
              sender := sender
              hash := hashBytes
              size := originalBytes.length }

/-- `decodeTx`: reject empty input, RLP-decode, require a list with a
version field, validate the version, dispatch to V1. -/
def decodeTx (keccak : Bytes → Bytes) (recover : Bytes → Bytes → Option Bytes)
    (bytes : Bytes) : Except CodecErr Tx :=
  if bytes.length = 0 then .error .emptyInput
  else match rlpDecode bytes with
    | none => .error .invalidRLP
    | some (.bytes _) => .error .expectedList
    | some (.list items) =>
      match items[0]? with
      | none => .error .missingField
      | some it0 => do
        let vb ← asBytes it0
        match txVersionFromCode (decodeScalar vb) with
        | some _ => decodeTxV1 keccak recover items bytes
        | none => Except.error (.unknownCode (decodeScalar vb))

/-! ## Builder (`src/tx/TxBuilder.ts`) -/

/-- The builder's fields with their initializers (`TxBuilder` lines 50–62);
`TxBuilder.create` reads the clock for the timestamp default, passed here
explicitly. -/
structure TxBuilderState where
  version : Nat := 1
  timestamp : Nat
  type : Option TxType := none
  network : Option Network := none
  nonce : Option Nat := none
  recipient : Option Bytes := none
  tokenAddress : Option Bytes := none
  amount : Option Nat := none
  fee : Nat := 0
  message : Option Bytes := none
  payload : Option Payload := none
  referenceHash : Option Bytes := none
deriving DecidableEq

/-- `TxBuilder.create()`: a fresh builder; `now` is the `Date.now()`
reading. -/
def TxBuilder.create (now : Nat) : TxBuilderState := { timestamp := now }

/-- Setter `version`. -/
def TxBuilder.version (b : TxBuilderState) (v : Nat) : TxBuilderState :=
  { b with version := v }

/-- Setter `timestamp`. -/
def TxBuilder.timestamp (b : TxBuilderState) (t : Nat) : TxBuilderState :=
  { b with timestamp := t }

/-- Setter `type`. -/
def TxBuilder.type (b : TxBuilderState) (t : TxType) : TxBuilderState :=
  { b with type := some t }

/-- Setter `network`. -/
def TxBuilder.network (b : TxBuilderState) (n : Network) : TxBuilderState :=
  { b with network := some n }

/-- Setter `nonce`. -/
def TxBuilder.nonce (b : TxBuilderState) (n : Nat) : TxBuilderState :=
  { b with nonce := some n }

/-- Setter `recipient`. -/
def TxBuilder.recipient (b : TxBuilderState) (r : Bytes) : TxBuilderState :=
  { b with recipient := some r }

/-- Setter `tokenAddress` (accepts `null`). -/
def TxBuilder.tokenAddress (b : TxBuilderState) (t : Option Bytes) : TxBuilderState :=
  { b with tokenAddress := t }

/-- Setter `amount`. -/
def TxBuilder.amount (b : TxBuilderState) (a : Nat) : TxBuilderState :=
  { b with amount := some a }

/-- Setter `fee`. -/
def TxBuilder.fee (b : TxBuilderState) (f : Nat) : TxBuilderState :=
  { b with fee := f }

/-- Setter `message` (and `messageString`/`messageHex`, which only differ
in how the bytes are obtained). -/
def TxBuilder.message (b : TxBuilderState) (m : Bytes) : TxBuilderState :=
  { b with message := some m }

/-- Setter `payload`. -/
def TxBuilder.payload (b : TxBuilderState) (p : Payload) : TxBuilderState :=
  { b with payload := some p }

/-- Setter `referenceHash`. -/
def TxBuilder.referenceHash (b : TxBuilderState) (h : Bytes) : TxBuilderState :=
  { b with referenceHash := some h }

/-- `TxBuilderError` messages, tagged by throw site
(`TxBuilder.validate`). -/
inductive TxBuilderError where
  | typeRequired
  | networkRequired
  | nonceRequired
  | recipientRequired
  | payloadRequired
  | referenceHashRequired
  | amountMustBeNull
deriving DecidableEq

/-- `TxBuilder.validate` (TxBuilder.ts lines 198–242): required fields,
then the per-type checks the source actually performs. -/
def TxBuilder.validate (b : TxBuilderState) : Except TxBuilderError Unit :=
  if b.type = none then .error .typeRequired
  else if b.network = none then .error .networkRequired
  else if b.nonce = none then .error .nonceRequired
  else match b.type with
    | some .TRANSFER =>
      if b.recipient = none then .error .recipientRequired else .ok ()
    | some .BIP_CREATE =>
      if b.payload = none then .error .payloadRequired
      else if b.amount ≠ none then .error .amountMustBeNull
      else .ok ()
    | some .BIP_VOTE =>
      if b.payload = none then .error .payloadRequired
      else if b.referenceHash = none then .error .referenceHashRequired
      else if b.amount ≠ none then .error .amountMustBeNull
      else .ok ()
    | none => .error .typeRequired

/-- `TxBuilder.buildUnsigned`: validate, then copy the fields into an
unsigned record (the source's non-null assertions on `type`, `network`,
`nonce` hold after validation; the fallback arm is unreachable). -/
def TxBuilder.buildUnsigned (b : TxBuilderState) : Except TxBuilderError TxData := do
  TxBuilder.validate b
  match b.type, b.network, b.nonce with
  | some t, some n, some nn =>
    .ok { version := b.version, timestamp := b.timestamp, type := t,
          network := n, nonce := some nn, recipient := b.recipient,
          tokenAddress := b.tokenAddress, amount := b.amount, fee := b.fee,
          message := b.message, payload := b.payload,
          referenceHash := b.referenceHash, signature := none }
  | _, _, _ => .error .typeRequired

/-! ## Decode-of-encode: field-level round trips -/

theorem decodeOptionalBigint_optScalarItem (o : Option Nat) :
    decodeOptionalBigint (optScalarItem o) = .ok o := by
  cases o <;>
    simp [optScalarItem, decodeOptionalBigint, isEmptyList, asBytes,
      decodeScalar_encodeScalar, Except.map]

theorem decodeOptionalBytes_optBytesItem (o : Option Bytes) :
    decodeOptionalBytes (optBytesItem o) = .ok o := by
  cases o <;>
    simp [optBytesItem, decodeOptionalBytes, isEmptyList, asBytes, Except.map]

theorem decodeOptionalAddress_optBytesItem {o : Option Bytes}
    (h : ∀ bs ∈ o, bs.length = 20) :
    decodeOptionalAddress (optBytesItem o) = .ok o := by
  cases o with
  | none => rfl
  | some bs =>
    have hbs : bs.length = 20 := h bs rfl
    simp [decodeOptionalAddress, decodeOptionalBytes_optBytesItem, decodeAddress,
      hbs, Except.instMonad, Except.bind, Except.map,
      show bs ≠ [] by intro hc; rw [hc] at hbs; exact absurd hbs (by simp)]

theorem decodeOptionalHash_optBytesItem {o : Option Bytes}
    (h : ∀ bs ∈ o, bs.length = 32) :
    decodeOptionalHash (optBytesItem o) = .ok o := by
  cases o with
  | none => rfl
  | some bs =>
    have hbs : bs.length = 32 := h bs rfl
    simp [decodeOptionalHash, decodeOptionalBytes_optBytesItem, decodeHash,
      hbs, Except.instMonad, Except.bind, Except.map,
      show bs ≠ [] by intro hc; rw [hc] at hbs; exact absurd hbs (by simp)]

theorem decodeOptionalString_optBytesItem (o : Option Bytes) :
    decodeOptionalString (optBytesItem o) = .ok (orNullIfEmpty o) := by
  match o with
  | none => rfl
  | some [] =>
    simp [decodeOptionalString, decodeOptionalBytes_optBytesItem, orNullIfEmpty,
      Except.instMonad, Except.bind]
  | some (b :: bs) =>
    simp [decodeOptionalString, decodeOptionalBytes_optBytesItem, orNullIfEmpty,
      Except.instMonad, Except.bind]

theorem orNullIfEmpty_getD (o : Option Bytes) :
    (orNullIfEmpty o).getD [] = o.getD [] := by
  match o with
  | none => rfl
  | some [] => rfl
  | some (b :: bs) => rfl

/-- The value normalization `decodeTx ∘ encodeTx` applies to a payload:
TOKEN_CREATE's absent `websiteUrl`/`logoUrl` come back as the empty string
and absent `maxSupply` as `0` (the decoder's `?? ''` / `?? 0n` defaults);
TOKEN_UPDATE's empty optional strings come back as `null`
(`decodeOptionalString` maps empty bytes to `null`).  Every other variant
round-trips unchanged. -/
def normPayload : Payload → Payload
  | .tokenCreate n su d w l m b =>
      .tokenCreate n su d (some (w.getD [])) (some (l.getD [])) (some (m.getD 0)) b
  | .tokenUpdate ta n su w l =>
      .tokenUpdate ta (orNullIfEmpty n) (orNullIfEmpty su) (orNullIfEmpty w)
        (orNullIfEmpty l)
  | p => p

/-- Field widths the payload decoder validates: every address field is
20 bytes. -/
def payloadWidthsOK : Payload → Bool
  | .tokenMint ta r _ => ta.length = 20 && r.length = 20
  | .tokenBurn ta s _ => ta.length = 20 && s.length = 20
  | .tokenCreate .. => true
  | .tokenUpdate ta _ _ _ _ => ta.length = 20
  | .vote _ => true
  | .addressAliasAdd addr _ => addr.length = 20
  | .addressAliasRemove _ => true
  | .authorityAdd a => a.length = 20
  | .authorityRemove a => a.length = 20
  | .networkParamsSet _ pool _ _ _ _ _ =>
    match pool with
    | none => true
    | some bs => bs.length = 20

set_option maxHeartbeats 2000000 in
theorem decodePayloadItems_payloadItems {p : Payload}
    (h : payloadWidthsOK p = true) :
    decodePayloadItems [.list (payloadItems p)] = .ok (some (normPayload p)) := by
  cases p <;>
    simp_all [payloadWidthsOK, decodePayloadItems, payloadItems, normPayload,
      payloadTypeCode, asBytes, atBytes, txPayloadTypeFromCode,
      decodeScalar_encodeScalar, decodeAddress, decodeOptionalBigintAt,
      decodeOptionalAddressAt, decodeOptionalStringAt,
      decodeOptionalBigint_optScalarItem, decodeOptionalAddress_optBytesItem,
      decodeOptionalString_optBytesItem, orNullIfEmpty_getD,
      Except.instMonad, Except.bind, Except.map]
  rename_i br pool tmt ahl md mbf mbyf
  cases pool with
  | none => rfl
  | some bs =>
    rw [decodeOptionalAddress_optBytesItem
      (by intro x hx; cases hx; exact of_decide_eq_true h)]

theorem txTypeFromCode_code (t : TxType) : txTypeFromCode (txTypeCode t) = some t := by
  cases t <;> rfl

theorem networkFromCode_code (n : Network) :
    networkFromCode (networkCode n) = some n := by
  cases n <;> rfl

theorem txTypeFromCodeE_code (t : TxType) :
    txTypeFromCodeE (txTypeCode t) = .ok t := by
  cases t <;> rfl

theorem networkFromCodeE_code (n : Network) :
    networkFromCodeE (networkCode n) = .ok n := by
  cases n <;> rfl

theorem decodePayload_payloadItemOf {p : Option Payload}
    (h : ∀ q ∈ p, payloadWidthsOK q = true) :
    decodePayload (payloadItemOf p) = .ok (p.map normPayload) := by
  cases p with
  | none => rfl
  | some q =>
    rw [payloadItemOf, decodePayload, decodePayloadItems_payloadItems (h q rfl)]
    rfl

/-- The value normalization `decodeTx ∘ encodeTx` applies to the serialized
fields: an absent nonce becomes `0` (`nonce ?? 0n` in `decodeTxV1`) and the
payload is normalized by `normPayload`; every other field is unchanged. -/
def normTxData (tx : TxData) : TxData :=
  { tx with nonce := some (tx.nonce.getD 0), payload := tx.payload.map normPayload }

/-- Field widths the transaction decoder validates: 20-byte optional
addresses, a 32-byte optional reference hash, and the payload's address
widths. -/
def txWidthsOK (tx : TxData) : Bool :=
  (match tx.recipient with | none => true | some bs => bs.length = 20) &&
  (match tx.tokenAddress with | none => true | some bs => bs.length = 20) &&
  (match tx.referenceHash with | none => true | some bs => bs.length = 32) &&
  (match tx.payload with | none => true | some p => payloadWidthsOK p)

set_option maxHeartbeats 2000000 in
/-- Evaluating `decodeTxV1` on the item list the V1 encoder produced. -/
theorem decodeTxV1_txV1Items (keccak : Bytes → Bytes)
    (recover : Bytes → Bytes → Option Bytes) (tx : TxData) (s sender : Bytes)
    (orig : Bytes)
    (hver : tx.version = 1)
    (hsig : tx.signature = some s)
    (hslen : s.length = 65)
    (hw : txWidthsOK tx = true)
    (hrec : recover
      (keccak (encodeTxV1 { normTxData tx with signature := none } false)) s
      = some sender) :
    decodeTxV1 keccak recover (txV1Items tx true) orig
      = .ok { toTxData := { normTxData tx with signature := some s }
              sender := sender
              hash := keccak (encodeTxV1 { normTxData tx with signature := some s } true)
              size := orig.length } := by
  rw [txWidthsOK] at hw
  simp only [Bool.and_eq_true] at hw
  obtain ⟨⟨⟨hrcp, htok⟩, href⟩, hpay⟩ := hw
  have hrcp' : ∀ bs ∈ tx.recipient, bs.length = 20 := by
    intro bs hbs
    match hx : tx.recipient, hbs with
    | some bs, rfl => rw [hx] at hrcp; exact of_decide_eq_true hrcp
  have htok' : ∀ bs ∈ tx.tokenAddress, bs.length = 20 := by
    intro bs hbs
    match hx : tx.tokenAddress, hbs with
    | some bs, rfl => rw [hx] at htok; exact of_decide_eq_true htok
  have href' : ∀ bs ∈ tx.referenceHash, bs.length = 32 := by
    intro bs hbs
    match hx : tx.referenceHash, hbs with
    | some bs, rfl => rw [hx] at href; exact of_decide_eq_true href
  have hpay' : ∀ q ∈ tx.payload, payloadWidthsOK q = true := by
    intro q hq
    match hx : tx.payload, hq with
    | some q, rfl => rw [hx] at hpay; exact hpay
  simp only [normTxData, hver] at hrec
  rw [decodeTxV1]
  simp only [txV1Items, hsig, List.cons_append, List.nil_append, if_true]
  simp only [atBytes, List.getElem?_cons_zero, List.getElem?_cons_succ,
    asBytes, decodeScalar_encodeScalar, hver, txVersionFromCodeE,
    txVersionFromCode, txTypeFromCodeE_code, networkFromCodeE_code,
    decodeOptionalBigintAt, decodeOptionalAddressAt, decodeOptionalHashAt,
    decodeOptionalBytesAt, decodePayloadAt,
    decodeOptionalBigint_optScalarItem,
    decodeOptionalAddress_optBytesItem hrcp',
    decodeOptionalAddress_optBytesItem htok',
    decodeOptionalHash_optBytesItem href',
    decodeOptionalBytes_optBytesItem,
    decodePayload_payloadItemOf hpay',
    toSignatureE, hslen, recoverAddressE,
    hashForSigning, hashTx, encodeTx, normTxData,
    Except.instMonad, Except.bind, Except.map, hrec]
  simp [normTxData, hrec, hver]

set_option maxHeartbeats 1000000 in
/-- `decodeTx` on the V1 encoder's output: the parse/serialize round trip
followed by the field-level evaluation. -/
theorem decodeTx_encodeTxV1 (keccak : Bytes → Bytes)
    (recover : Bytes → Bytes → Option Bytes) (tx : TxData) (s sender : Bytes)
    (hver : tx.version = 1)
    (hsig : tx.signature = some s)
    (hslen : s.length = 65)
    (hw : txWidthsOK tx = true)
    (hwf : itemWF (.list (txV1Items tx true)) = true)
    (hrec : recover
      (keccak (encodeTxV1 { normTxData tx with signature := none } false)) s
      = some sender) :
    decodeTx keccak recover (encodeTxV1 tx true)
      = .ok { toTxData := { normTxData tx with signature := some s }
              sender := sender
              hash := keccak (encodeTxV1 { normTxData tx with signature := some s } true)
              size := (encodeTxV1 tx true).length } := by
  have hlen : ¬ (encodeTxV1 tx true).length = 0 := by
    rw [encodeTxV1_eq_encodeItem]
    have := encodeItem_length_pos (.list (txV1Items tx true))
    omega
  have hdec : rlpDecode (encodeTxV1 tx true) = some (.list (txV1Items tx true)) := by
    rw [encodeTxV1_eq_encodeItem]; exact rlpDecode_encodeItem hwf
  have h0 : (txV1Items tx true)[0]? = some (.bytes (encodeScalar tx.version)) := by
    simp [txV1Items]
  rw [decodeTx, if_neg hlen, hdec]
  simp only [h0, asBytes, decodeScalar_encodeScalar, hver, txVersionFromCode,
    Except.instMonad, Except.bind, if_true, reduceIte]
  exact decodeTxV1_txV1Items keccak recover tx s sender _ hver hsig hslen hw hrec

theorem exceptBind_eq_ok {ε α β : Type} (x : Except ε α) (f : α → Except ε β)
    (b : β) : (x >>= f) = .ok b ↔ ∃ a, x = .ok a ∧ f a = .ok b := by
  cases x <;> simp [Except.instMonad, Except.bind]

theorem exceptMap_eq_ok {ε α β : Type} (x : Except ε α) (f : α → β) (b : β) :
    (Except.map f x) = .ok b ↔ ∃ a, x = .ok a ∧ f a = b := by
  cases x <;> simp [Except.map]

/-! ## Structural signature validation (`src/crypto/PrivateKey.ts`) -/

/-- The secp256k1 curve order (`CURVE_N`). -/
def CURVE_N : Nat :=
  0xFFFFFFFFFFFFFFFFFFFFFFFFFFFFFFFEBAAEDCE6AF48A03BBFD25E8CD0364141

/-- `HALF_CURVE_ORDER = CURVE_N >> 1n`. -/
def HALF_CURVE_ORDER : Nat := CURVE_N / 2

/-- `NATIVE_TOKEN` / `ZERO_ADDRESS` (`src/types.ts`): the all-zero
20-byte address. -/
def NATIVE_TOKEN : Bytes := List.replicate 20 0

/-- `isSignatureStructurallyValid` on the decoded signature bytes
(`r` and `s` are the big-endian values of bytes 0–31 and 32–63, `v` is
byte 64; `r <= 0n` on a non-negative bigint is `r = 0`).  Every violation
returns `false`; the body is wrapped in `try`/`catch`, so the function
returns a boolean on every input and never throws. -/
def isSignatureStructurallyValid (sigBytes : Bytes) : Bool :=
  if sigBytes.length ≠ 65 then false
  else
    let v := sigBytes.getD 64 0
    if v ≠ 27 ∧ v ≠ 28 then false
    else
      let r := decodeScalar (sigBytes.take 32)
      let s := decodeScalar ((sigBytes.drop 32).take 32)
      if r = 0 ∨ r ≥ CURVE_N then false
      else if s = 0 ∨ s ≥ CURVE_N then false
      else if s > HALF_CURVE_ORDER then false
      else true

/-! ## Validator payload factories (`src/tx/payloads/index.ts`)

`createValidatorAddPayload` / `createValidatorRemovePayload` tag their
records with `TxPayloadType.BIP_VALIDATOR_ADD` / `BIP_VALIDATOR_REMOVE`.
No such members exist in the `TxPayloadType` enum (`src/enums.ts`), so at
run time the enum property access yields `undefined`; the tag is therefore
an `Option Nat` whose value is `none` here. -/

/-- The runtime value of the enum access `TxPayloadType.BIP_VALIDATOR_ADD`:
no such member, the access yields `undefined`. -/
def validatorAddTypeTag : Option Nat := none

/-- The runtime value of `TxPayloadType.BIP_VALIDATOR_REMOVE`. -/
def validatorRemoveTypeTag : Option Nat := none

/-- The `ValidatorAddPayload`/`ValidatorRemovePayload` record shape
(`src/tx/payloads/types.ts`), with the tag at its runtime value. -/
structure ValidatorPayload where
  payloadType : Option Nat
  validatorAddress : Bytes
deriving DecidableEq

/-- `createValidatorAddPayload`. -/
def createValidatorAddPayload (validatorAddress : Bytes) : ValidatorPayload :=
  { payloadType := validatorAddTypeTag, validatorAddress }

/-- `createValidatorRemovePayload`. -/
def createValidatorRemovePayload (validatorAddress : Bytes) : ValidatorPayload :=
  { payloadType := validatorRemoveTypeTag, validatorAddress }

/-- The runtime errors `encodePayload` can raise on a validator payload. -/
inductive EncodeErr where
  /-- `TypeError: Cannot convert undefined to a BigInt`, thrown by
  `BigInt(value)` inside `encodeScalar` (also by the address helpers on an
  undefined field). -/
  | typeConversion
  /-- The `switch`'s default arm: `Unknown payload type`. -/
  | unknownPayloadType (code : Option Nat)
deriving DecidableEq

/-- `encodeScalar` on the runtime tag: `BigInt(undefined)` throws before
any bytes are produced. -/
def encodeScalarRT : Option Nat → Except EncodeErr Bytes
  | none => .error .typeConversion
  | some v => .ok (encodeScalar v)

/-- `encodePayload` applied to a validator payload.  The first statement,
`writer.writeIntScalar(payload.payloadType)`, converts the tag with
`encodeScalarRT`; a validator payload's tag is the undefined member, so
this throws already.  Were the tag one of the ten enum codes, the matching
`switch` arm would run and crash converting the record's absent fields;
any other defined tag reaches the default arm. -/
def encodePayloadValidator (p : ValidatorPayload) : Except EncodeErr Bytes := do
  let _ ← encodeScalarRT p.payloadType
  match p.payloadType with
  | some c =>
    if c ≤ 9 then .error .typeConversion
    else .error (.unknownPayloadType (some c))
  | none => .error (.unknownPayloadType none)

/-! ## Concrete fixtures (used by witnesses and counterexamples) -/

/-- The recipient of the `simple_transfer` seed scenario. -/
def addr11 : Bytes := List.replicate 20 0x11

/-- An arbitrary sender address. -/
def addr22 : Bytes := List.replicate 20 0x22

/-- A 32-byte reference hash. -/
def hashAB : Bytes := List.replicate 32 0xab

/-- An arbitrary 65-byte signature. -/
def sig65 : Bytes := List.replicate 65 0x01

/-- A stand-in for the external Keccak-256 primitive (the claims proved
with it hold for every hash function). -/
def keccakStub : Bytes → Bytes := fun _ => List.replicate 32 0x5a

/-- A stand-in for the external secp256k1 recovery primitive. -/
def recoverStub : Bytes → Bytes → Option Bytes := fun _ _ => some addr22

/-- A signed BIP_VOTE transaction record. -/
def exVoteData : TxData :=
  { version := 1, timestamp := 1702200000005, type := .BIP_VOTE,
    network := .MAINNET, nonce := some 100, recipient := none,
    tokenAddress := none, amount := none, fee := 100000, message := none,
    payload := some (.vote 1), referenceHash := some hashAB,
    signature := some sig65 }

/-- A signed TRANSFER record with `nonce = 0`. -/
def exNonceZeroData : TxData :=
  { exVoteData with
      type := .TRANSFER
      payload := none
      referenceHash := none
      recipient := some addr11
      nonce := some 0 }

/-- A signed TRANSFER record with an absent nonce. -/
def exNonceAbsentData : TxData := { exNonceZeroData with nonce := none }

/-! ## C2 -/

/-- C2: for every V1 transaction, `encodeTxV1` emits the outer RLP list
(list header over the concatenated element encodings); the element at
position 9 (index 8) is the fee as a bare, unwrapped minimal big-endian
scalar; the payload position (index 10) contributes the single byte `0xc0`
when the payload is null and is otherwise a one-element list containing
the already-RLP-encoded payload list; and when `includeSignature` is true
and a signature is present, the signature is appended (index 12) as a bare
RLP byte string, not wrapped in a list. -/
theorem tx_encoder_v1_layout (tx : TxData) (includeSignature : Bool) :
    encodeTxV1 tx includeSignature
      = encodeListHeader (encodeParts (txV1Elements tx includeSignature)).length
        ++ encodeParts (txV1Elements tx includeSignature)
    ∧ (txV1Elements tx includeSignature)[8]? = some (.bytes (encodeScalar tx.fee))
    ∧ (tx.payload = none →
        (txV1Elements tx includeSignature)[10]? = some (.raw [0xc0])
        ∧ encodePart (.raw [0xc0]) = [0xc0])
    ∧ (∀ p, tx.payload = some p →
        (txV1Elements tx includeSignature)[10]?
          = some (.list [.raw (encodePayload (some p))]))
    ∧ (∀ s, includeSignature = true → tx.signature = some s →
        (txV1Elements tx includeSignature)[12]? = some (.bytes s)) := by
  refine ⟨rfl, ?_, ?_, ?_, ?_⟩
  · simp [txV1Elements, writeScalarElem]
  · intro hp
    refine ⟨?_, rfl⟩
    simp [txV1Elements, payloadElement, hp, encodePayload, EMPTY_LIST,
      isEmptyPayload, writeEmptyListElem]
  · intro p hp
    have h2 := two_le_encodePayload_some p
    have hne : encodePayload (some p) ≠ [] := by
      intro hc
      have hc' := congrArg List.length hc
      simp only [List.length_nil] at hc'
      omega
    have hemp : ¬ isEmptyPayload (encodePayload (some p)) := by
      rw [isEmptyPayload]; omega
    simp [txV1Elements, hp, payloadElement, hne, hemp, writeOptionalRawElem]
  · intro s hi hs
    simp [txV1Elements, hi, hs]

/-- Witness for C2 at a concrete BIP_VOTE transaction. -/
theorem tx_encoder_v1_layout_witness :
    (txV1Elements exVoteData true)[8]? = some (.bytes (encodeScalar exVoteData.fee))
    ∧ (txV1Elements exVoteData true)[10]?
      = some (.list [.raw (encodePayload (some (.vote 1)))])
    ∧ (txV1Elements exVoteData true)[12]? = some (.bytes sig65) :=
  ⟨(tx_encoder_v1_layout exVoteData true).2.1,
   (tx_encoder_v1_layout exVoteData true).2.2.2.1 (.vote 1) rfl,
   (tx_encoder_v1_layout exVoteData true).2.2.2.2 sig65 rfl rfl⟩

/-! ## C3 -/

/-- C3: the encoder never collapses an absent nonce with a zero nonce: a
zero nonce occupies its position as the two bytes `0xc1 0x80` (a
one-element list holding the empty-bytes scalar), an absent nonce as the
single byte `0xc0` (the empty list), and the two byte strings differ. -/
theorem tx_encoder_nonce_zero_vs_absent (tx : TxData) (includeSignature : Bool) :
    (tx.nonce = some 0 →
      (txV1Elements tx includeSignature)[4]?
        = some (writeOptionalLongScalarElem (some 0))
      ∧ encodePart (writeOptionalLongScalarElem (some 0)) = [0xc1, 0x80])
    ∧ (tx.nonce = none →
      (txV1Elements tx includeSignature)[4]? = some writeEmptyListElem
      ∧ encodePart writeEmptyListElem = [0xc0])
    ∧ ([0xc1, 0x80] : Bytes) ≠ [0xc0] := by
  refine ⟨?_, ?_, by simp⟩
  · intro h
    exact ⟨by simp [txV1Elements, h], rfl⟩
  · intro h
    exact ⟨by simp [txV1Elements, h, writeOptionalLongScalarElem], rfl⟩

/-- Witness for C3 at concrete transactions with `nonce = 0` and with a
null nonce. -/
theorem tx_encoder_nonce_zero_vs_absent_witness :
    ((txV1Elements exNonceZeroData true)[4]?
        = some (writeOptionalLongScalarElem (some 0))
      ∧ encodePart (writeOptionalLongScalarElem (some 0)) = [0xc1, 0x80])
    ∧ ((txV1Elements exNonceAbsentData true)[4]? = some writeEmptyListElem
      ∧ encodePart writeEmptyListElem = [0xc0]) :=
  ⟨(tx_encoder_nonce_zero_vs_absent exNonceZeroData true).1 rfl,
   (tx_encoder_nonce_zero_vs_absent exNonceAbsentData true).2.1 rfl⟩

/-! ## C4 -/

/-- C4: scalar boundary behaviour of the RLP writer: zero is encoded as
the empty byte string whose on-wire RLP string form is the single byte
`0x80` (never `0x00`); a value whose minimal big-endian form is one byte
below `0x80` is encoded as that byte itself; one byte at or above `0x80`
gains an `0x81` prefix. -/
theorem rlp_scalar_boundary (v : Nat) :
    (v = 0 → encodeScalar v = [] ∧ rlpEncodeString (encodeScalar v) = [0x80])
    ∧ (0 < v → v < 0x80 →
        encodeScalar v = [v] ∧ rlpEncodeString (encodeScalar v) = [v])
    ∧ (0x80 ≤ v → v ≤ 0xff →
        encodeScalar v = [v] ∧ rlpEncodeString (encodeScalar v) = [0x81, v]) := by
  refine ⟨?_, ?_, ?_⟩
  · rintro rfl; exact ⟨rfl, rfl⟩
  · intro h0 h1
    have he : encodeScalar v = [v] := encodeScalar_single h0 (by omega)
    refine ⟨he, ?_⟩
    rw [he, rlpEncodeString, if_neg (by simp),
      if_pos ⟨by simp, by simpa using h1⟩]
  · intro h0 h1
    have he : encodeScalar v = [v] := encodeScalar_single (by omega) (by omega)
    refine ⟨he, ?_⟩
    rw [he, rlpEncodeString, if_neg (by simp),
      if_neg (by simp; omega), if_pos (by simp)]
    simp

/-- Witness for C4 at the values `0`, `5` and `0x80`. -/
theorem rlp_scalar_boundary_witness :
    (encodeScalar 0 = [] ∧ rlpEncodeString (encodeScalar 0) = [0x80])
    ∧ (encodeScalar 5 = [5] ∧ rlpEncodeString (encodeScalar 5) = [5])
    ∧ (encodeScalar 0x80 = [0x80]
        ∧ rlpEncodeString (encodeScalar 0x80) = [0x81, 0x80]) :=
  ⟨(rlp_scalar_boundary 0).1 rfl,
   (rlp_scalar_boundary 5).2.1 (by decide) (by decide),
   (rlp_scalar_boundary 0x80).2.2 (by decide) (by decide)⟩

/-! ## C7 -/

/-- C7: the output of `encodeTx(·, false)`, and hence the signing hash, is
independent of the signature field: for every transaction and every
replacement signature value (so for every two transactions agreeing on all
fields but the signature), the signing encoding and `hashForSigning`
coincide, for every hash function. -/
theorem signing_hash_ignores_signature (keccak : Bytes → Bytes) (tx : TxData)
    (s' : Option Bytes) :
    encodeTx { tx with signature := s' } false = encodeTx tx false
    ∧ hashForSigning keccak { tx with signature := s' }
      = hashForSigning keccak tx :=
  ⟨rfl, rfl⟩

/-- Witness for C7 at a concrete transaction, stripping its signature. -/
theorem signing_hash_ignores_signature_witness :
    hashForSigning keccakStub { exVoteData with signature := none }
      = hashForSigning keccakStub exVoteData :=
  (signing_hash_ignores_signature keccakStub exVoteData none).2

/-! ## C8 -/

/-- C8: `isSignatureStructurallyValid` returns `true` exactly when the
signature is 65 bytes laid out as `r(32) ‖ s(32) ‖ v(1)` with
`v ∈ {27, 28}`, `0 < r < n` and `0 < s ≤ n/2` (`2·s ≤ n`), where `n` is
the secp256k1 curve order; being a total boolean function (the source
wraps the body in `try`/`catch`), it returns a boolean on every input and
never throws. -/
theorem signature_structural_validity_iff (bs : Bytes) :
    isSignatureStructurallyValid bs = true ↔
      (bs.length = 65
        ∧ (bs.getD 64 0 = 27 ∨ bs.getD 64 0 = 28)
        ∧ 0 < decodeScalar (bs.take 32)
        ∧ decodeScalar (bs.take 32) < CURVE_N
        ∧ 0 < decodeScalar ((bs.drop 32).take 32)
        ∧ 2 * decodeScalar ((bs.drop 32).take 32) ≤ CURVE_N) := by
  have hhalf : HALF_CURVE_ORDER = CURVE_N / 2 := rfl
  rw [isSignatureStructurallyValid]
  split_ifs with h1 h2 h3 h4 h5 <;> simp_all <;> omega

/-- Witness for C8: a concrete valid signature (`r = s = 1`, `v = 27`). -/
theorem signature_structural_validity_iff_witness :
    isSignatureStructurallyValid
      (List.replicate 31 0 ++ [1] ++ (List.replicate 31 0 ++ [1]) ++ [27])
      = true :=
  (signature_structural_validity_iff _).mpr (by decide)

/-! ## C9 -/

/-- C9 (counterexample to the claim as stated): applying `encodePayload`
to `createValidatorAddPayload`'s output does not surface the
unknown-payload-type error of the switch's default arm — it throws the
scalar type-conversion `TypeError` on the undefined tag before the switch
is reached. -/
theorem validator_payload_error_counterexample :
    encodePayloadValidator (createValidatorAddPayload (List.replicate 20 0x99))
      = .error .typeConversion
    ∧ (Except.error (EncodeErr.unknownPayloadType none) : Except EncodeErr Bytes)
      ≠ encodePayloadValidator
          (createValidatorAddPayload (List.replicate 20 0x99)) := by
  refine ⟨rfl, ?_⟩
  intro hc
  rw [show encodePayloadValidator (createValidatorAddPayload (List.replicate 20 0x99))
      = Except.error EncodeErr.typeConversion from rfl] at hc
  simp at hc

/-- C9 (amended): the validator payload variants are reserved without
codec handlers: both factories tag their records with an enum member that
does not exist (the runtime tag is `undefined`), `encodePayload` on such a
payload fails — with the scalar type-conversion error raised before the
default arm, not the unknown-payload-type error — and produces no bytes,
and no `TxPayloadType` member exists for these variants (every member's
code is one of the ten handled codes 0–9). -/
theorem validator_payloads_reserved (a : Bytes) :
    (createValidatorAddPayload a).payloadType = none
    ∧ (createValidatorRemovePayload a).payloadType = none
    ∧ encodePayloadValidator (createValidatorAddPayload a)
      = .error .typeConversion
    ∧ encodePayloadValidator (createValidatorRemovePayload a)
      = .error .typeConversion
    ∧ (∀ m : TxPayloadType, TxPayloadType.code m ≤ 9) := by
  refine ⟨rfl, rfl, rfl, rfl, ?_⟩
  intro m; cases m <;> decide

/-- Witness for C9's amended statement at a concrete address. -/
theorem validator_payloads_reserved_witness :
    encodePayloadValidator (createValidatorAddPayload addr22)
      = .error .typeConversion
    ∧ (createValidatorAddPayload addr22).payloadType = none :=
  ⟨(validator_payloads_reserved addr22).2.2.1,
   (validator_payloads_reserved addr22).1⟩

/-! ## C5 -/

/-- A TRANSFER builder state carrying a payload and a reference hash
(violating the §3 TRANSFER invariants). -/
def exTransferViolating : TxBuilderState :=
  { timestamp := 1702200000000
    type := some .TRANSFER
    network := some .MAINNET
    nonce := some 1
    recipient := some addr11
    payload := some (.vote 1)
    referenceHash := some hashAB }

/-- A BIP_CREATE builder state carrying a recipient and a reference hash
(violating the §3 BIP_CREATE invariants). -/
def exBipCreateViolating : TxBuilderState :=
  { timestamp := 1702200000001
    type := some .BIP_CREATE
    network := some .MAINNET
    nonce := some 2
    recipient := some addr11
    payload := some (.authorityAdd addr22)
    referenceHash := some hashAB }

/-- C5 (counterexample to the claim as stated): the builder does not fail
before signing on a TRANSFER with non-null payload and referenceHash, nor
on a BIP_CREATE with non-null recipient and referenceHash —
`buildUnsigned` succeeds on both states. -/
theorem builder_invariants_counterexample :
    (TxBuilder.buildUnsigned exTransferViolating).isOk = true
    ∧ (TxBuilder.buildUnsigned exBipCreateViolating).isOk = true :=
  ⟨rfl, rfl⟩

/-- C5 (amended): pre-sign validation rejects exactly: a missing type,
network or nonce; TRANSFER without a recipient; BIP_CREATE without a
payload or with a non-null amount; BIP_VOTE without a payload, without a
reference hash, or with a non-null amount.  The remaining §3 absence
invariants (TRANSFER's payload/referenceHash absent, BIP_CREATE's
recipient/referenceHash absent) are not checked.  `buildUnsigned` returns
an unsigned record exactly when validation passes. -/
theorem builder_validate_characterization (b : TxBuilderState) :
    (TxBuilder.validate b = .ok () ↔
      (b.type ≠ none ∧ b.network ≠ none ∧ b.nonce ≠ none
        ∧ (b.type = some .TRANSFER → b.recipient ≠ none)
        ∧ (b.type = some .BIP_CREATE → b.payload ≠ none ∧ b.amount = none)
        ∧ (b.type = some .BIP_VOTE →
            b.payload ≠ none ∧ b.referenceHash ≠ none ∧ b.amount = none)))
    ∧ ((TxBuilder.buildUnsigned b).isOk = true ↔ TxBuilder.validate b = .ok ()) := by
  constructor
  · rcases b with ⟨v, ts, ty, nw, no, rc, ta, am, fe, ms, pl, rh⟩
    rcases ty with _ | t
    · simp [TxBuilder.validate]
    · cases t <;> rcases nw with _ | nw <;> rcases no with _ | no <;>
        rcases rc with _ | rc <;> rcases pl with _ | pl <;>
        rcases rh with _ | rh <;> rcases am with _ | am <;>
        simp [TxBuilder.validate]
  · cases hval : TxBuilder.validate b with
    | error e =>
      simp [TxBuilder.buildUnsigned, hval, Except.instMonad, Except.bind,
        Except.isOk, Except.toBool]
    | ok u =>
      have h3 : b.type ≠ none ∧ b.network ≠ none ∧ b.nonce ≠ none := by
        rw [TxBuilder.validate] at hval
        by_cases a1 : b.type = none
        · rw [if_pos a1] at hval; exact absurd hval (by simp)
        · rw [if_neg a1] at hval
          by_cases a2 : b.network = none
          · rw [if_pos a2] at hval; exact absurd hval (by simp)
          · rw [if_neg a2] at hval
            by_cases a3 : b.nonce = none
            · rw [if_pos a3] at hval; exact absurd hval (by simp)
            · exact ⟨a1, a2, a3⟩
      obtain ⟨t, ht⟩ := Option.ne_none_iff_exists'.mp h3.1
      obtain ⟨n, hn⟩ := Option.ne_none_iff_exists'.mp h3.2.1
      obtain ⟨nn, hnn⟩ := Option.ne_none_iff_exists'.mp h3.2.2
      simp [TxBuilder.buildUnsigned, hval, ht, hn, hnn, Except.instMonad,
        Except.bind, Except.isOk, Except.toBool]

/-- Witness for C5's amended statement: the characterization certifies
both that a complete TRANSFER state (even one violating the unchecked §3
invariants) validates, and that a TRANSFER state missing its recipient is
rejected. -/
theorem builder_validate_characterization_witness :
    TxBuilder.validate exTransferViolating = .ok ()
    ∧ ¬ TxBuilder.validate { exTransferViolating with recipient := none }
        = .ok () :=
  ⟨(builder_validate_characterization exTransferViolating).1.mpr (by decide),
   fun hc => by
    have h := (builder_validate_characterization
      { exTransferViolating with recipient := none }).1.mp hc
    exact absurd h (by decide)⟩

/-! ## C6 -/

/-- A TRANSFER builder on which `tokenAddress` was never set, built with
the fluent setters from `TxBuilder.create`. -/
def exTransferNoToken : TxBuilderState :=
  TxBuilder.recipient (TxBuilder.nonce (TxBuilder.network
    (TxBuilder.type (TxBuilder.create 1702200000000) .TRANSFER) .MAINNET) 1) addr11

/-- C6 (counterexample to the claim as stated): the unsigned TRANSFER
record built from a builder on which `tokenAddress` was never set has
`tokenAddress = null`, not NATIVE_TOKEN. -/
theorem builder_token_default_counterexample :
    Except.map TxData.tokenAddress (TxBuilder.buildUnsigned exTransferNoToken)
      = .ok none
    ∧ Except.map TxData.tokenAddress (TxBuilder.buildUnsigned exTransferNoToken)
      ≠ .ok (some NATIVE_TOKEN) := by
  refine ⟨rfl, ?_⟩
  intro hc
  rw [show Except.map TxData.tokenAddress (TxBuilder.buildUnsigned exTransferNoToken)
      = (Except.ok none : Except TxBuilderError (Option Bytes)) from rfl] at hc
  simp at hc

/-- C6 (amended): the builder's documented defaults are `version = V1` and
`fee = 0`, and `tokenAddress` defaults to `null` (absent) — not
NATIVE_TOKEN; `buildUnsigned` copies the builder's `tokenAddress`,
`version` and `fee` into the unsigned record unchanged. -/
theorem builder_defaults (now : Nat) (b : TxBuilderState) (u : TxData)
    (h : TxBuilder.buildUnsigned b = .ok u) :
    u.tokenAddress = b.tokenAddress ∧ u.version = b.version ∧ u.fee = b.fee
    ∧ (TxBuilder.create now).tokenAddress = none
    ∧ (TxBuilder.create now).version = 1
    ∧ (TxBuilder.create now).fee = 0 := by
  rw [TxBuilder.buildUnsigned] at h
  obtain ⟨-, -, h⟩ := (exceptBind_eq_ok _ _ _).mp h
  split at h
  · rw [Except.ok.injEq] at h
    subst h
    exact ⟨rfl, rfl, rfl, rfl, rfl, rfl⟩
  · exact absurd h (by simp)

/-- The unsigned record `buildUnsigned` produces on `exTransferNoToken`. -/
def exUnsignedNoToken : TxData :=
  { version := 1, timestamp := 1702200000000, type := .TRANSFER,
    network := .MAINNET, nonce := some 1, recipient := some addr11,
    tokenAddress := none, amount := none, fee := 0, message := none,
    payload := none, referenceHash := none, signature := none }

/-- Witness for C6's amended statement on a concrete builder. -/
theorem builder_defaults_witness :
    exUnsignedNoToken.tokenAddress = exTransferNoToken.tokenAddress
    ∧ exUnsignedNoToken.version = exTransferNoToken.version
    ∧ exUnsignedNoToken.fee = exTransferNoToken.fee
    ∧ (TxBuilder.create 0).tokenAddress = none
    ∧ (TxBuilder.create 0).version = 1
    ∧ (TxBuilder.create 0).fee = 0 :=
  builder_defaults 0 exTransferNoToken exUnsignedNoToken rfl

instance {ε α : Type} [DecidableEq ε] [DecidableEq α] :
    DecidableEq (Except ε α) := fun a b =>
  match a, b with
  | .error e, .error f => decidable_of_iff (e = f) (by simp)
  | .ok x, .ok y => decidable_of_iff (x = y) (by simp)
  | .error _, .ok _ => isFalse (by simp)
  | .ok _, .error _ => isFalse (by simp)

/-! ## C1 -/

/-- C1 (amended): for every signed V1 transaction `t` (65-byte signature,
well-formed field widths and sizes, and an external recovery primitive
that returns `t`'s sender on the decoded signing hash),
`decodeTx (encodeTx t true)` succeeds and agrees with `t` on every
serialized field up to the decoder's value normalization `normTxData`:
an absent nonce decodes as `0`; a TOKEN_CREATE payload's absent
`websiteUrl`/`logoUrl` decode as the empty string and absent `maxSupply`
as `0`; a TOKEN_UPDATE payload's empty-string optionals decode as absent.
The decoded `sender` is `t.sender` and the decoded `size` is `t.size`;
the decoded `hash` is the Keccak of the re-encoded (normalized) record.
Whenever `t`'s fields are fixed points of the normalization — in
particular for every payload other than the TOKEN_CREATE/TOKEN_UPDATE
cases above — the decoded transaction equals `t` in every field,
including `sender`, `hash` and `size`. -/
theorem tx_roundtrip_normalized (keccak : Bytes → Bytes)
    (recover : Bytes → Bytes → Option Bytes) (t : Tx) (s : Bytes)
    (hver : t.toTxData.version = 1)
    (hsig : t.toTxData.signature = some s)
    (hslen : s.length = 65)
    (hw : txWidthsOK t.toTxData = true)
    (hwf : itemWF (.list (txV1Items t.toTxData true)) = true)
    (hrec : recover
      (keccak (encodeTxV1 { normTxData t.toTxData with signature := none } false)) s
      = some t.sender)
    (hsize : t.size = (encodeTxV1 t.toTxData true).length) :
    decodeTx keccak recover (encodeTxV1 t.toTxData true)
      = .ok { toTxData := { normTxData t.toTxData with signature := some s }
              sender := t.sender
              hash := keccak
                (encodeTxV1 { normTxData t.toTxData with signature := some s } true)
              size := t.size }
    ∧ (normTxData t.toTxData = t.toTxData →
        t.hash = keccak (encodeTxV1 t.toTxData true) →
        decodeTx keccak recover (encodeTxV1 t.toTxData true) = .ok t) := by
  have hmain := decodeTx_encodeTxV1 keccak recover t.toTxData s t.sender
    hver hsig hslen hw hwf hrec
  constructor
  · rw [hmain, hsize]
  · intro hnorm hhash
    rw [hmain]
    rcases t with ⟨data, sender, hsh, sz⟩
    simp only at hnorm hsig hhash hsize ⊢
    rw [hnorm, ← hsig]
    rw [show ({ data with signature := data.signature } : TxData) = data from rfl]
    rw [← hhash, ← hsize]

/-- The `bip_token_create` seed scenario's record with its optional
payload fields absent (`websiteUrl`, `logoUrl`, `maxSupply` null). -/
def exTokenCreateData : TxData :=
  { version := 1, timestamp := 1702200000003, type := .BIP_CREATE,
    network := .MAINNET, nonce := some 12, recipient := none,
    tokenAddress := none, amount := none, fee := 100000000,
    message := none,
    payload := some (.tokenCreate [0x54, 0x6f, 0x6b] [0x54, 0x54] 9
      none none none true),
    referenceHash := none, signature := some sig65 }

/-- The signed transaction whose serialized fields are
`exTokenCreateData` (derived fields as the stub primitives compute
them). -/
def exTokenCreateTx : Tx :=
  { toTxData := exTokenCreateData
    sender := addr22
    hash := keccakStub (encodeTxV1 exTokenCreateData true)
    size := (encodeTxV1 exTokenCreateData true).length }

set_option maxRecDepth 10000 in
/-- C1 (counterexample to the claim as stated): for a BIP_CREATE
transaction whose TOKEN_CREATE payload has `websiteUrl`, `logoUrl` and
`maxSupply` absent, `decodeTx (encodeTx t true)` does not equal `t` in
every serialized field: the decoded payload carries the empty string for
the absent URLs and `0` for the absent `maxSupply`. -/
theorem tx_roundtrip_counterexample :
    Except.map (fun tx : Tx => tx.toTxData.payload)
      (decodeTx keccakStub recoverStub (encodeTxV1 exTokenCreateData true))
      = .ok (some (.tokenCreate [0x54, 0x6f, 0x6b] [0x54, 0x54] 9
          (some []) (some []) (some 0) true))
    ∧ some (Payload.tokenCreate [0x54, 0x6f, 0x6b] [0x54, 0x54] 9
        (some []) (some []) (some 0) true)
      ≠ exTokenCreateData.payload
    ∧ decodeTx keccakStub recoverStub (encodeTxV1 exTokenCreateData true)
      ≠ .ok exTokenCreateTx := by
  refine ⟨by decide, by decide, by decide⟩

/-- The `simple_transfer` seed scenario's record: every field a fixed
point of the decoder's normalization. -/
def exTransferData : TxData :=
  { version := 1, timestamp := 1702200000000, type := .TRANSFER,
    network := .MAINNET, nonce := some 1, recipient := some addr11,
    tokenAddress := some NATIVE_TOKEN, amount := some 10000000000,
    fee := 100000, message := none, payload := none, referenceHash := none,
    signature := some sig65 }

/-- The signed `simple_transfer` transaction under the stub primitives. -/
def exTransferTx : Tx :=
  { toTxData := exTransferData
    sender := addr22
    hash := keccakStub (encodeTxV1 exTransferData true)
    size := (encodeTxV1 exTransferData true).length }

set_option maxRecDepth 10000 in
/-- Witness for C1's amended statement: the round trip is exact on a
concrete normalization-stable transfer. -/
theorem tx_roundtrip_normalized_witness :
    decodeTx keccakStub recoverStub (encodeTxV1 exTransferData true)
      = .ok exTransferTx :=
  (tx_roundtrip_normalized keccakStub recoverStub exTransferTx sig65
    rfl rfl (by decide) (by decide) (by decide) rfl rfl).2 (by decide) rfl

/-! ## C10 -/

/-- C10: `decodeTxV1` never returns a transaction with an absent nonce:
whenever the nonce position of a successfully decoded V1 item list is the
empty list (nonce absent on the wire), the decoded transaction's nonce is
`0`; consequently re-encoding the decoded transaction puts the two bytes
`0xc1 0x80` at the nonce position, while the input carried the single
byte `0xc0` there — different bytes, even though the wire format
distinguishes absent from zero. -/
theorem decode_nonce_absent_normalizes (keccak : Bytes → Bytes)
    (recover : Bytes → Bytes → Option Bytes) (items : List RLPItem)
    (orig : Bytes) (tx : Tx)
    (h4 : items[4]? = some (.list []))
    (hok : decodeTxV1 keccak recover items orig = .ok tx) :
    tx.toTxData.nonce = some 0
    ∧ (txV1Elements tx.toTxData true)[4]?
      = some (writeOptionalLongScalarElem (some 0))
    ∧ encodePart (writeOptionalLongScalarElem (some 0)) = [0xc1, 0x80]
    ∧ encodeItem (.list []) = [0xc0]
    ∧ ([0xc1, 0x80] : Bytes) ≠ [0xc0] := by
  have hn : tx.toTxData.nonce = some 0 := by
    rw [decodeTxV1] at hok
    simp only [decodeOptionalBigintAt, h4, decodeOptionalBigint, isEmptyList,
      exceptBind_eq_ok, Except.ok.injEq, exists_eq_left, exists_eq_left',
      Option.getD_none, reduceIte] at hok
    obtain ⟨vb, -, ver, -, tsb, -, tyb, -, ty, -, nwb, -, nw, -, rcp, -,
      tok, -, amt, -, feeb, -, msg, -, pay, -, refh, -, sg, -, sh, -,
      snd, -, hb, -, hok⟩ := hok
    rw [← hok]
  exact ⟨hn, by simp [txV1Elements, hn], rfl, rfl, by simp⟩

/-- The wire item list of a TRANSFER with an absent nonce. -/
def exNonceAbsentItems : List RLPItem := txV1Items exNonceAbsentData true

/-- The transaction `decodeTxV1` returns on `exNonceAbsentItems` under
the stub primitives (empty original bytes, so size 0). -/
def exDecodedNonceAbsent : Tx :=
  { toTxData := { exNonceAbsentData with nonce := some 0 }
    sender := addr22
    hash := keccakStub (encodeTxV1 { exNonceAbsentData with nonce := some 0 } true)
    size := 0 }

/-- Witness for C10 on a concrete absent-nonce wire input. -/
theorem decode_nonce_absent_normalizes_witness :
    exDecodedNonceAbsent.toTxData.nonce = some 0
    ∧ (txV1Elements exDecodedNonceAbsent.toTxData true)[4]?
      = some (writeOptionalLongScalarElem (some 0)) := by
  have h := decode_nonce_absent_normalizes keccakStub recoverStub
    exNonceAbsentItems [] exDecodedNonceAbsent (by decide) (by decide)
  exact ⟨h.1, h.2.1⟩

end CryptoJ
